import Mathlib

/-!
# Indi_Project: the on-device store and the screen handlers that use it

A shallow embedding of the data-access code of the React Native screens
(`RegisterScreen.js`, `LoginScreen.js`, `MessengerScreen.js`, `CommentScreen.js`,
`screens/AboutScreen.js`) over the SQLite tables created in `App.js`.

Modelling conventions.

* A JavaScript string is a list of Unicode scalar values (`Str`).  Its `.length`
  counts UTF-16 code units (`jsLength`), so a character outside the basic plane
  counts twice.
* A table is the list of its rows in rowid order, the order in which SQLite scans
  it.  `INTEGER PRIMARY KEY AUTOINCREMENT` gives a new row an id one above the
  largest id handed out so far; no statement of the application deletes a row or
  supplies an id, so that is one above the largest id in the table (`nextId`).
* `created_at TEXT DEFAULT CURRENT_TIMESTAMP` stores the reading of the store's
  clock as a fixed-width `YYYY-MM-DD HH:MM:SS` text, whose byte-wise order is
  the order of the instants; a timestamp is the number of seconds it denotes, and
  every inserting handler receives the clock reading `now` of its `INSERT`.
* `ORDER BY k ASC` is a stable sort of the scanned rows on the key `k`.
* Every statement is executed as SQL defines it: inside a handler the only
  statement failure is the violation of a declared constraint.  What a handler
  does when the store rejects its statement for another reason is given by a
  function of its own, named after the handler.
* The handlers work on `Db`, the rows of the four tables as `onInit` of `App.js`
  leaves them; which tables exist and how they are defined is the matter of
  `DbFile`.
* An asynchronous handler is modelled by the state reached once the handler and
  the loads it starts have completed.
-/

namespace IndiProject

/-! ## Strings -/

/-- A JavaScript string, as its sequence of Unicode scalar values. -/
abbrev Str := List Char

/-- Number of UTF-16 code units of one character. -/
def utf16Units (c : Char) : Nat :=
  if c.toNat < 65536 then 1 else 2

/-- The `.length` of a JavaScript string: its number of UTF-16 code units. -/
def jsLength : Str → Nat
  | [] => 0
  | c :: cs => utf16Units c + jsLength cs

/-- The characters that `String.prototype.trim` strips and that `\s` matches in a
regular expression: ECMAScript WhiteSpace and LineTerminator. -/
def isJsWhiteSpace (c : Char) : Bool :=
  let n := c.toNat
  n == 9 || n == 10 || n == 11 || n == 12 || n == 13 || n == 32 || n == 160 ||
  n == 5760 || (8192 ≤ n && n ≤ 8202) || n == 8232 || n == 8233 || n == 8239 ||
  n == 8287 || n == 12288 || n == 65279

/-- `String.prototype.trim`: strip white space from both ends. -/
def jsTrim (s : Str) : Str :=
  ((s.dropWhile isJsWhiteSpace).reverse.dropWhile isJsWhiteSpace).reverse

/-- `String.prototype.includes` for a one-character needle. -/
def jsIncludesChar (s : Str) (c : Char) : Bool :=
  s.contains c

/-! ## The regular expression of `handleRegister`

`/^[^\s@]+@[^\s@]+\.[^\s@]+$/` is run by a backtracking matcher: a greedy `+`
first tries to take one more character of its class and falls back to the rest
of the pattern.  The pattern is anchored at both ends, so `test` makes a single
attempt at index 0. -/

/-- The character class `[^\s@]`. -/
def notSpaceNorAt (c : Char) : Bool :=
  !isJsWhiteSpace c && c != '@'

/-- Greedy `cls+` followed by the continuation `k`. -/
def matchPlus (cls : Char → Bool) (k : Str → Bool) : Str → Bool
  | [] => false
  | c :: cs => cls c && (matchPlus cls k cs || k cs)

/-- One literal character followed by the continuation `k`. -/
def matchChar (lit : Char) (k : Str → Bool) : Str → Bool
  | [] => false
  | c :: cs => c == lit && k cs

/-- The anchor `$` (no `m` flag): end of input. -/
def matchEnd : Str → Bool
  | [] => true
  | _ :: _ => false

/-- The test `emailRegex.test(email)` of `handleRegister`. -/
def emailRegexTest (email : Str) : Bool :=
  matchPlus notSpaceNorAt
    (matchChar '@'
      (matchPlus notSpaceNorAt
        (matchChar '.'
          (matchPlus notSpaceNorAt matchEnd)))) email

/-! ## Tables -/

/-- A row of `auth_users`; `profileUri` is `none` while the column is NULL. -/
structure Account where
  id : Nat
  name : Str
  email : Str
  password : Str
  profileUri : Option Str
  deriving DecidableEq

/-- A row of `messages`. -/
structure Message where
  id : Nat
  sender : Str
  receiver : Str
  message : Str
  created_at : Nat
  deriving DecidableEq

/-- A row of `comments`. -/
structure Comment where
  id : Nat
  user : Str
  comment : Str
  created_at : Nat
  deriving DecidableEq

/-- A row of `user_profiles`; `bio` and `address` are nullable. -/
structure Profile where
  id : Nat
  user_id : Nat
  bio : Option Str
  address : Option Str
  deriving DecidableEq

/-- The database `authDatabase.db` after `onInit`: its four tables. -/
structure Db where
  auth_users : List Account
  messages : List Message
  comments : List Comment
  user_profiles : List Profile
  deriving DecidableEq

/-- The database right after the first `onInit`. -/
def Db.empty : Db :=
  { auth_users := [], messages := [], comments := [], user_profiles := [] }

/-- The id `AUTOINCREMENT` gives the next row of a table whose ids are `ids`. -/
def nextId (ids : List Nat) : Nat :=
  ids.foldr max 0 + 1

/-- A failed statement, as the handlers tell failures apart: the message of the
error contains `UNIQUE constraint failed`, or it does not. -/
inductive DbError where
  | uniqueConstraintFailed
  | other
  deriving DecidableEq

/-- A call of `Alert.alert(title, message)`. -/
structure Alert where
  title : String
  message : String
  deriving DecidableEq

/-! ## RegisterScreen.js -/

/-- The `form` state of the register screen. -/
structure RegisterForm where
  name : Str
  email : Str
  password : Str
  confirmPassword : Str
  deriving DecidableEq

/-- The state of the register screen that `handleRegister` reads or writes. -/
structure RegisterState where
  form : RegisterForm
  passwordStrength : String
  deriving DecidableEq

/-- What one run of `handleRegister` leaves behind: the database, the screen
state, the alert it raised and the route it navigated to, if any. -/
structure RegisterResult where
  db : Db
  screen : RegisterState
  alert : Alert
  navigate : Option String
  deriving DecidableEq

/-- The row an `INSERT INTO auth_users (name, email, password)` adds: the id is
assigned by the store and the column `profileUri`, when it exists, is NULL. -/
def newUserRow (db : Db) (name email password : Str) : Account :=
  { id := nextId (db.auth_users.map (·.id)), name := name, email := email,
    password := password, profileUri := none }

/-- `INSERT INTO auth_users (name, email, password) VALUES (?, ?, ?)` under the
schema of `App.js`, where `email` is `UNIQUE`. -/
def insertUser (db : Db) (name email password : Str) : Except DbError Db :=
  if db.auth_users.any (fun u => u.email == email) then
    .error .uniqueConstraintFailed
  else
    .ok { db with auth_users := db.auth_users ++ [newUserRow db name email password] }

/-- The handler `handleRegister` of the register screen. -/
def handleRegister (db : Db) (s : RegisterState) : RegisterResult :=
  let name := s.form.name
  let email := s.form.email
  let password := s.form.password
  let confirmPassword := s.form.confirmPassword
  let trimmedName := jsTrim name
  if trimmedName.isEmpty || email.isEmpty || password.isEmpty || confirmPassword.isEmpty then
    { db := db, screen := s, navigate := none,
      alert := ⟨"Error", "All fields are required."⟩ }
  else if !emailRegexTest email then
    { db := db, screen := s, navigate := none,
      alert := ⟨"Invalid Email", "Please enter a valid email address."⟩ }
  else if jsLength password < 6 || jsLength confirmPassword < 6 then
    { db := db, screen := s, navigate := none,
      alert := ⟨"Weak Password", "Password must be at least 6 characters."⟩ }
  else if password != confirmPassword then
    { db := db, screen := s, navigate := none,
      alert := ⟨"Error", "Passwords do not match."⟩ }
  else
    match insertUser db trimmedName email password with
    | .ok db1 =>
      { db := db1,
        screen := { form := { name := [], email := [], password := [], confirmPassword := [] },
                    passwordStrength := "" },
        navigate := some "Login",
        alert := ⟨"Success", "Registration complete! You can now log in."⟩ }
    | .error .uniqueConstraintFailed =>
      { db := db, screen := s, navigate := none,
        alert := ⟨"Error", "Email already registered."⟩ }
    | .error .other =>
      { db := db, screen := s, navigate := none,
        alert := ⟨"Error", "Registration failed."⟩ }

/-! ## LoginScreen.js -/

/-- The `form` state of the login screen. -/
structure LoginForm where
  email : Str
  password : Str
  deriving DecidableEq

/-- The state of the login screen that `handleLogin` reads or writes. -/
structure LoginState where
  form : LoginForm
  loggedInUser : Option Account
  otherUsers : List Account
  profileImage : Option Str
  deriving DecidableEq

/-- What one run of `handleLogin` leaves behind; it only reads the database. -/
structure LoginResult where
  screen : LoginState
  alert : Alert
  deriving DecidableEq

/-- `SELECT * FROM auth_users WHERE id != ?`, stored by `loadOtherUsers` in the
state `otherUsers`. -/
def loadOtherUsers (db : Db) (userId : Nat) (s : LoginState) : LoginState :=
  { s with otherUsers := db.auth_users.filter (fun u => u.id != userId) }

/-- `SELECT * FROM auth_users WHERE email = ? AND password = ?` through
`getFirstAsync`: the first row of the result, or null. -/
def selectUser (db : Db) (email password : Str) : Option Account :=
  db.auth_users.find? (fun u => u.email == email && u.password == password)

/-- The expression `user.profileUri || null`: NULL and the empty string both
give null. -/
def profileUriOrNull (u : Account) : Option Str :=
  match u.profileUri with
  | none => none
  | some uri => if uri.isEmpty then none else some uri

/-- The handler `handleLogin` of the login screen. -/
def handleLogin (db : Db) (s : LoginState) : LoginResult :=
  let email := s.form.email
  let password := s.form.password
  if email.isEmpty || password.isEmpty then
    { screen := s, alert := ⟨"Error", "Enter email and password."⟩ }
  else if !jsIncludesChar email '@' then
    { screen := s, alert := ⟨"Invalid Email", "Email must include '@'."⟩ }
  else if jsLength password < 6 then
    { screen := s, alert := ⟨"Weak Password", "Password must be at least 6 characters."⟩ }
  else
    match selectUser db email password with
    | some user =>
      { screen := loadOtherUsers db user.id
          { s with loggedInUser := some user,
                   form := { email := [], password := [] },
                   profileImage := profileUriOrNull user },
        alert := ⟨"Success", "Welcome back, " ++ String.mk user.name ++ "!"⟩ }
    | none =>
      { screen := s, alert := ⟨"Error", "Invalid email or password."⟩ }

/-! ## MessengerScreen.js -/

/-- The state of the messenger screen that its handlers read or write. -/
structure MessengerState where
  messages : List Message
  newMessage : Str
  deriving DecidableEq

/-- The `WHERE` clause of `loadMessages`, with its four parameters bound to the
two names. -/
def betweenUsers (a b : Str) (m : Message) : Bool :=
  (m.sender == a && m.receiver == b) || (m.sender == b && m.receiver == a)

/-- The function `loadMessages`:
`SELECT * FROM messages WHERE (sender = ? AND receiver = ?) OR (sender = ? AND
receiver = ?) ORDER BY created_at ASC`, stored in the state `messages`. -/
def loadMessages (db : Db) (currentUser chatWithUser : Account) (s : MessengerState) :
    MessengerState :=
  { s with
    messages :=
      (db.messages.filter (betweenUsers currentUser.name chatWithUser.name)).insertionSort
        (fun m n => m.created_at ≤ n.created_at) }

/-- The row an `INSERT INTO messages (sender, receiver, message)` adds: the id and
`created_at` are assigned by the store. -/
def newMessageRow (db : Db) (now : Nat) (sender receiver message : Str) : Message :=
  { id := nextId (db.messages.map (·.id)), sender := sender, receiver := receiver,
    message := message, created_at := now }

/-- `INSERT INTO messages (sender, receiver, message) VALUES (?, ?, ?)`. -/
def insertMessage (db : Db) (now : Nat) (sender receiver message : Str) : Db :=
  { db with messages := db.messages ++ [newMessageRow db now sender receiver message] }

/-- The handler `sendMessage`; `now` is the reading of the store's clock when the
`INSERT` runs. -/
def sendMessage (db : Db) (now : Nat) (currentUser chatWithUser : Account)
    (s : MessengerState) : Db × MessengerState :=
  if (jsTrim s.newMessage).isEmpty then
    (db, s)
  else
    let db1 := insertMessage db now currentUser.name chatWithUser.name (jsTrim s.newMessage)
    (db1, loadMessages db1 currentUser chatWithUser { s with newMessage := [] })

/-! ## CommentScreen.js -/

/-- The state of the comment screen. -/
structure CommentState where
  comment : Str
  comments : List Comment
  deriving DecidableEq

/-- The function `loadComments`: `SELECT * FROM comments ORDER BY id ASC`, stored
in the state `comments`. -/
def loadComments (db : Db) (s : CommentState) : CommentState :=
  { s with comments := db.comments.insertionSort (fun c d => c.id ≤ d.id) }

/-- The row an `INSERT INTO comments (user, comment)` adds: the id and
`created_at` are assigned by the store. -/
def newCommentRow (db : Db) (now : Nat) (user comment : Str) : Comment :=
  { id := nextId (db.comments.map (·.id)), user := user, comment := comment,
    created_at := now }

/-- `INSERT INTO comments (user, comment) VALUES (?, ?)`. -/
def insertComment (db : Db) (now : Nat) (user comment : Str) : Db :=
  { db with comments := db.comments ++ [newCommentRow db now user comment] }

/-- The handler `addComment`; `user` is the route parameter of the screen and
`now` the reading of the store's clock when the `INSERT` runs. -/
def addComment (db : Db) (now : Nat) (user : Str) (s : CommentState) : Db × CommentState :=
  if (jsTrim s.comment).isEmpty then
    (db, s)
  else
    let db1 := insertComment db now user s.comment
    (db1, loadComments db1 { s with comment := [] })

/-! ## LoginScreen.js: the profile picture -/

/-- `UPDATE auth_users SET profileUri = ? WHERE id = ?` on the rows of the table. -/
def updateProfileUriRows (rows : List Account) (uri : Str) (id : Nat) : List Account :=
  rows.map (fun u => if u.id == id then { u with profileUri := some uri } else u)

/-- `UPDATE auth_users SET profileUri = ? WHERE id = ?`. -/
def updateProfileUri (db : Db) (uri : Str) (id : Nat) : Db :=
  { db with auth_users := updateProfileUriRows db.auth_users uri id }

/-- What one run of `pickImage` leaves behind; it raises at most one alert. -/
structure PickImageResult where
  db : Db
  screen : LoginState
  alert : Option Alert
  deriving DecidableEq

/-- The handler `pickImage`.  `granted` is the answer to the permission request
and `picked` the uri of the image chosen in the library, `none` when the picker
was cancelled. -/
def pickImage (db : Db) (granted : Bool) (picked : Option Str) (s : LoginState) :
    PickImageResult :=
  if !granted then
    { db := db, screen := s,
      alert := some ⟨"Permission required", "Please allow access to your gallery."⟩ }
  else
    match picked with
    | none => { db := db, screen := s, alert := none }
    | some uri =>
      match s.loggedInUser with
      | some user =>
        { db := updateProfileUri db uri user.id,
          screen := { s with profileImage := some uri },
          alert := some ⟨"Updated", "Profile picture updated successfully!"⟩ }
      | none =>
        { db := db, screen := { s with profileImage := some uri }, alert := none }

/-! ## screens/AboutScreen.js -/

/-- The state of the about screen that its handlers read or write. -/
structure AboutState where
  name : Str
  bio : Str
  address : Str
  deriving DecidableEq

/-- `SELECT name FROM auth_users WHERE id = ?` through `getFirstAsync`. -/
def selectUserName (db : Db) (userId : Nat) : Option Str :=
  (db.auth_users.find? (fun u => u.id == userId)).map (·.name)

/-- `SELECT ... FROM user_profiles WHERE user_id = ?` through `getFirstAsync`: the
first row of the account, or null. -/
def selectProfile (db : Db) (userId : Nat) : Option Profile :=
  db.user_profiles.find? (fun p => p.user_id == userId)

/-- The expression `x || ""` on a nullable text. -/
def orEmpty : Option Str → Str
  | none => []
  | some t => t

/-- The function `loadUserProfile`; `userId` is the route parameter of the
screen. -/
def loadUserProfile (db : Db) (userId : Nat) (s : AboutState) : AboutState :=
  let s1 :=
    match selectUserName db userId with
    | some n => { s with name := n }
    | none => s
  match selectProfile db userId with
  | some p => { s1 with bio := orEmpty p.bio, address := orEmpty p.address }
  | none => s1

/-- `UPDATE user_profiles SET bio = ?, address = ? WHERE user_id = ?`. -/
def updateProfile (db : Db) (bio address : Str) (userId : Nat) : Db :=
  { db with
    user_profiles := db.user_profiles.map (fun p =>
      if p.user_id == userId then { p with bio := some bio, address := some address } else p) }

/-- The row an `INSERT INTO user_profiles (user_id, bio, address)` adds to a table
with the rows `rows`: the id is assigned by the store. -/
def newProfileRow (rows : List Profile) (userId : Nat) (bio address : Str) : Profile :=
  { id := nextId (rows.map (·.id)), user_id := userId, bio := some bio,
    address := some address }

/-- `INSERT INTO user_profiles (user_id, bio, address) VALUES (?, ?, ?)` under the
schema of `App.js`, which declares no constraint that the row could violate. -/
def insertProfile (db : Db) (userId : Nat) (bio address : Str) : Db :=
  { db with
    user_profiles := db.user_profiles ++ [newProfileRow db.user_profiles userId bio address] }

/-- What one run of `saveProfile` leaves behind. -/
structure SaveResult where
  db : Db
  screen : AboutState
  alert : Alert
  deriving DecidableEq

/-- The handler `saveProfile` when the store carries out its statements. -/
def saveProfile (db : Db) (userId : Nat) (s : AboutState) : SaveResult :=
  let db1 :=
    match selectProfile db userId with
    | some _ => updateProfile db s.bio s.address userId
    | none => insertProfile db userId s.bio s.address
  { db := db1, screen := loadUserProfile db1 userId s,
    alert := ⟨"Saved", "Bio and address updated successfully!"⟩ }

/-! ## RegisterScreen.js: the strength of the password -/

/-- The character class `[a-zA-Z]`. -/
def isAsciiLetter (c : Char) : Bool :=
  ('a'.toNat ≤ c.toNat && c.toNat ≤ 'z'.toNat) || ('A'.toNat ≤ c.toNat && c.toNat ≤ 'Z'.toNat)

/-- The character class `\d`, which without the `u` flag is `[0-9]`. -/
def isAsciiDigit (c : Char) : Bool :=
  '0'.toNat ≤ c.toNat && c.toNat ≤ '9'.toNat

/-- The characters of the class `[!@#$%^&*(),.?":{}|<>]`. -/
def specialChars : Str :=
  "!@#$%^&*(),.?\":\x7b\x7d|<>".toList

/-- The character class `[!@#$%^&*(),.?":{}|<>]`. -/
def isSpecialChar (c : Char) : Bool :=
  specialChars.contains c

/-- The test of a pattern that is one character class, neither anchored nor
quantified: some character of the text is in the class. -/
def testClass (cls : Char → Bool) (text : Str) : Bool :=
  text.any cls

/-- The function `evaluatePassword`. -/
def evaluatePassword (pwd : Str) : String :=
  if jsLength pwd < 6 then "Weak"
  else
    let hasLetters := testClass isAsciiLetter pwd
    let hasNumbers := testClass isAsciiDigit pwd
    let hasSpecial := testClass isSpecialChar pwd
    if hasLetters && hasNumbers && hasSpecial then "Strong"
    else if hasLetters && hasNumbers then "Medium"
    else "Weak"

/-- The handler `handlePasswordChange` of the password input. -/
def handlePasswordChange (s : RegisterState) (text : Str) : RegisterState :=
  { form := { s.form with password := text }, passwordStrength := evaluatePassword text }

/-! ## Vocabulary of the properties -/

/-- The alerts `handleRegister` raises from its checks of the form, before any
statement is sent to the store. -/
def registerValidationAlerts : List Alert :=
  [⟨"Error", "All fields are required."⟩,
   ⟨"Invalid Email", "Please enter a valid email address."⟩,
   ⟨"Weak Password", "Password must be at least 6 characters."⟩,
   ⟨"Error", "Passwords do not match."⟩]

/-- A form that gets through every check of `handleRegister`: the trimmed name,
the email, the password and the confirmation are non-empty, the email matches the
pattern, both passwords have at least 6 code units and they are equal. -/
def passesRegisterChecks (f : RegisterForm) : Bool :=
  !(jsTrim f.name).isEmpty && !f.email.isEmpty && !f.password.isEmpty &&
  !f.confirmPassword.isEmpty && emailRegexTest f.email &&
  decide (6 ≤ jsLength f.password) && decide (6 ≤ jsLength f.confirmPassword) &&
  f.password == f.confirmPassword

/-- The one-row-per-account predicate: no account id occurs twice in the column
`user_id` of `user_profiles`. -/
def OneRowPerAccount (db : Db) : Prop :=
  (db.user_profiles.map (·.user_id)).Nodup

/-- A text with no white space at its first and at its last position. -/
def NoOuterWhiteSpace (s : Str) : Prop :=
  (∀ c, s.head? = some c → isJsWhiteSpace c = false) ∧
  (∀ c, s.getLast? = some c → isJsWhiteSpace c = false)

/-- An email of the shape `name@domain.tld`: three non-empty parts, free of white
space and of `@`, joined by an `@` and a `.`. -/
def EmailShape (e : Str) : Prop :=
  ∃ name domain tld : Str, e = name ++ '@' :: (domain ++ '.' :: tld) ∧
    name ≠ [] ∧ domain ≠ [] ∧ tld ≠ [] ∧
    (∀ c ∈ name, isJsWhiteSpace c = false ∧ c ≠ '@') ∧
    (∀ c ∈ domain, isJsWhiteSpace c = false ∧ c ≠ '@') ∧
    (∀ c ∈ tld, isJsWhiteSpace c = false ∧ c ≠ '@')

/-- An account row as a registration stores it: a name that is not empty and has
no white space at either end, an email of the shape `name@domain.tld` with a
single `@` and no white space, and a password of at least 6 code units. -/
def WellFormedAccount (u : Account) : Prop :=
  u.name ≠ [] ∧ NoOuterWhiteSpace u.name ∧ EmailShape u.email ∧
  u.email.count '@' = 1 ∧ (∀ c ∈ u.email, isJsWhiteSpace c = false) ∧
  6 ≤ jsLength u.password

/-! ## The handlers when the store rejects a statement

A statement can also be rejected for a reason that is no constraint of the
schema (the storage fails).  The rejected statement changes nothing in the
database, and the handler continues in its `catch` block, or is abandoned when it
has none.  For each handler that writes or reads through the store, the function
below is its run when the store rejects the first statement it sends. -/

/-- The checks of `handleLogin` that precede its `SELECT`. -/
def passesLoginChecks (f : LoginForm) : Bool :=
  !f.email.isEmpty && !f.password.isEmpty && jsIncludesChar f.email '@' &&
  decide (6 ≤ jsLength f.password)

/-- The run of `handleRegister` when its `INSERT` is rejected with a message that
does not contain `UNIQUE constraint failed`. -/
def handleRegisterRejected (db : Db) (s : RegisterState) : RegisterResult :=
  if passesRegisterChecks s.form then
    { db := db, screen := s, navigate := none,
      alert := ⟨"Error", "Registration failed."⟩ }
  else
    handleRegister db s

/-- The run of `handleLogin` when its `SELECT` is rejected. -/
def handleLoginRejected (db : Db) (s : LoginState) : LoginResult :=
  if passesLoginChecks s.form then
    { screen := s, alert := ⟨"Error", "Login failed."⟩ }
  else
    handleLogin db s

/-- The run of `sendMessage` when its `INSERT` is rejected: the `catch` block only
logs, and a blank draft has returned before. -/
def sendMessageRejected (db : Db) (s : MessengerState) : Db × MessengerState :=
  (db, s)

/-- The run of `addComment` when its `INSERT` is rejected: the handler has no
`catch` block and is abandoned at the rejected statement. -/
def addCommentRejected (db : Db) (s : CommentState) : Db × CommentState :=
  (db, s)

/-- The run of `saveProfile` when the store rejects its `SELECT`, or the `UPDATE`
or `INSERT` that follows it: the `catch` block raises an alert and clears the two
inputs. -/
def saveProfileRejected (db : Db) (s : AboutState) : SaveResult :=
  { db := db, screen := { s with bio := [], address := [] },
    alert := ⟨"Error", "Failed to save profile. Inputs cleared."⟩ }

/-! ## Sequences of store operations -/

/-- One call of a handler that can write to the store, with the inputs of the
call. -/
inductive StoreOp where
  | register (s : RegisterState)
  | setImageReference (granted : Bool) (picked : Option Str) (s : LoginState)
  | send (now : Nat) (currentUser chatWithUser : Account) (s : MessengerState)
  | post (now : Nat) (user : Str) (s : CommentState)
  | save (userId : Nat) (s : AboutState)

/-- The database after one operation. -/
def applyOp (db : Db) : StoreOp → Db
  | .register s => (handleRegister db s).db
  | .setImageReference granted picked s => (pickImage db granted picked s).db
  | .send now currentUser chatWithUser s => (sendMessage db now currentUser chatWithUser s).1
  | .post now user s => (addComment db now user s).1
  | .save userId s => (saveProfile db userId s).db

/-- The database after a sequence of operations, the first of the list first. -/
def applyOps (db : Db) (ops : List StoreOp) : Db :=
  ops.foldl applyOp db

/-! ## The database file and the statements that define its tables

`Db` holds the rows of the four tables once `onInit` of `App.js` has run, which
`SQLiteProvider` does before it renders any screen.  The file itself also records
which tables exist and how each was defined; the repository defines `comments`
and `user_profiles` twice, with different columns and constraints. -/

/-- How `auth_users` is defined: whether it has the column `profileUri`, which
`App.js` does not declare and the login screen adds. -/
structure AuthUsersDef where
  profileUri : Bool
  deriving DecidableEq

/-- How `comments` is defined: with the column `created_at` (`App.js`) or without
it (`CommentScreen.js`). -/
structure CommentsDef where
  created_at : Bool
  deriving DecidableEq

/-- How `user_profiles` is defined: whether `user_id` is declared `UNIQUE`
(`AboutScreen.js`) or not (`App.js`). -/
structure UserProfilesDef where
  userIdUnique : Bool
  deriving DecidableEq

/-- The database file `authDatabase.db`: each table is absent, or present with
its definition and rows (`messages` has one definition only). -/
structure DbFile where
  auth_users : Option (AuthUsersDef × List Account)
  messages : Option (List Message)
  comments : Option (CommentsDef × List Comment)
  user_profiles : Option (UserProfilesDef × List Profile)
  deriving DecidableEq

/-- The file before the first launch: no table. -/
def DbFile.fresh : DbFile :=
  { auth_users := none, messages := none, comments := none, user_profiles := none }

/-- The rows of the four tables, when all of them exist. -/
def DbFile.toDb (f : DbFile) : Option Db :=
  match f.auth_users, f.messages, f.comments, f.user_profiles with
  | some a, some m, some c, some p =>
    some { auth_users := a.2, messages := m, comments := c.2, user_profiles := p.2 }
  | _, _, _, _ => none

/-- `CREATE TABLE` on one table: a table that is absent is created empty with the
given definition; a table that exists is left as it is under `IF NOT EXISTS`, and
is an error without it. -/
def createTable {τ : Type} (ifNotExists : Bool) (created : τ) : Option τ → Except DbError (Option τ)
  | none => .ok (some created)
  | some t => if ifNotExists then .ok (some t) else .error .other

/-- The `user_profiles` of `App.js`: `user_id INTEGER NOT NULL`. -/
def appUserProfilesDef : UserProfilesDef :=
  { userIdUnique := false }

/-- The `user_profiles` of `AboutScreen.js`: `user_id INTEGER NOT NULL UNIQUE`. -/
def aboutUserProfilesDef : UserProfilesDef :=
  { userIdUnique := true }

/-- The callback `onInit` of `App.js`: four `CREATE TABLE IF NOT EXISTS`
statements, run in order; the first error ends the call. -/
def onInit (f : DbFile) : Except DbError DbFile := do
  let a ← createTable true (({ profileUri := false } : AuthUsersDef), ([] : List Account))
    f.auth_users
  let m ← createTable true ([] : List Message) f.messages
  let c ← createTable true (({ created_at := true } : CommentsDef), ([] : List Comment))
    f.comments
  let p ← createTable true (appUserProfilesDef, ([] : List Profile)) f.user_profiles
  pure { auth_users := a, messages := m, comments := c, user_profiles := p }

/-- The statement of `initDb` in `AboutScreen.js`:
`CREATE TABLE IF NOT EXISTS user_profiles (... user_id INTEGER NOT NULL UNIQUE ...)`. -/
def initDb (f : DbFile) : Except DbError DbFile := do
  let p ← createTable true (aboutUserProfilesDef, ([] : List Profile)) f.user_profiles
  pure { f with user_profiles := p }

/-- `INSERT INTO user_profiles (user_id, bio, address) VALUES (?, ?, ?)` on the
file: refused when the table is absent, or when `user_id` is `UNIQUE` and the
account already has a row. -/
def execInsertProfile (f : DbFile) (userId : Nat) (bio address : Str) :
    Except DbError DbFile :=
  match f.user_profiles with
  | none => .error .other
  | some (d, rows) =>
    if d.userIdUnique && rows.any (fun p => p.user_id == userId) then
      .error .uniqueConstraintFailed
    else
      .ok { f with user_profiles := some (d, rows ++ [newProfileRow rows userId bio address]) }

/-- `ALTER TABLE auth_users ADD COLUMN profileUri TEXT`: refused when the table is
absent or has the column already; the rows that exist get NULL in the column. -/
def alterAddProfileUri (f : DbFile) : Except DbError DbFile :=
  match f.auth_users with
  | none => .error .other
  | some (d, rows) =>
    if d.profileUri then .error .other
    else .ok { f with auth_users := some ({ profileUri := true }, rows) }

/-- The effect `createProfileUriColumn` that the login screen runs when it mounts:
the `ALTER TABLE` with its error caught. -/
def createProfileUriColumn (f : DbFile) : DbFile :=
  match alterAddProfileUri f with
  | .ok f1 => f1
  | .error _ => f

/-- `UPDATE auth_users SET profileUri = ? WHERE id = ?` on the file: refused when
the table or the column is absent. -/
def execUpdateProfileUri (f : DbFile) (uri : Str) (id : Nat) : Except DbError DbFile :=
  match f.auth_users with
  | none => .error .other
  | some (d, rows) =>
    if d.profileUri then .ok { f with auth_users := some (d, updateProfileUriRows rows uri id) }
    else .error .other

/-! ## Sample states -/

/-- An account row for Ann. -/
def annRow : Account :=
  { id := 1, name := "Ann".toList, email := "a@b.com".toList,
    password := "secret1".toList, profileUri := none }

/-- An account row for Bo. -/
def boRow : Account :=
  { id := 2, name := "Bo".toList, email := "bo@x.com".toList,
    password := "abcdef".toList, profileUri := none }

/-- A database whose only row is Ann's account. -/
def dbWithAnn : Db :=
  { Db.empty with auth_users := [annRow] }

/-- A database with the accounts of Ann and Bo. -/
def dbWithAnnBo : Db :=
  { Db.empty with auth_users := [annRow, boRow] }

/-- A register form with Ann's email and a confirmation that differs from the
password. -/
def formMismatch : RegisterState :=
  { form := { name := "Ann".toList, email := "a@b.com".toList,
              password := "secret1".toList, confirmPassword := "secret2".toList },
    passwordStrength := "Medium" }

/-- A well-formed register form that uses Ann's email again. -/
def formAnnAgain : RegisterState :=
  { form := { name := "Anna".toList, email := "a@b.com".toList,
              password := "hunter22".toList, confirmPassword := "hunter22".toList },
    passwordStrength := "Medium" }

/-- A register form without a name. -/
def formNoName : RegisterState :=
  { form := { name := [], email := "bo@x.com".toList,
              password := "abcdef".toList, confirmPassword := "abcdef".toList },
    passwordStrength := "Weak" }

/-- A well-formed register form for Bo, with blanks around the name. -/
def formBo : RegisterState :=
  { form := { name := " Bo ".toList, email := "bo@x.com".toList,
              password := "abcdef".toList, confirmPassword := "abcdef".toList },
    passwordStrength := "Weak" }

/-- The login screen with Ann's email and her password. -/
def loginAnn : LoginState :=
  { form := { email := "a@b.com".toList, password := "secret1".toList },
    loggedInUser := none, otherUsers := [], profileImage := none }

/-- The login screen with Ann's email and her password in another case. -/
def loginAnnOtherCase : LoginState :=
  { form := { email := "a@b.com".toList, password := "Secret1".toList },
    loggedInUser := none, otherUsers := [], profileImage := none }

/-- The messenger screen with the draft `hi`. -/
def draftHi : MessengerState :=
  { messages := [], newMessage := "hi".toList }

/-- The messenger screen with the draft `yo`, padded with blanks. -/
def draftYo : MessengerState :=
  { messages := [], newMessage := " yo ".toList }

/-- The messenger screen with a draft of two blanks. -/
def draftBlank : MessengerState :=
  { messages := [], newMessage := "  ".toList }

/-- The comment screen with the draft `nice`. -/
def commentNice : CommentState :=
  { comment := "nice".toList, comments := [] }

/-- The comment screen with a draft of one blank and one tab. -/
def commentBlank : CommentState :=
  { comment := " \t".toList, comments := [] }

/-- A comments table with two rows, the second older than the first by its
timestamp. -/
def dbTwoComments : Db :=
  { Db.empty with
    comments := [{ id := 1, user := "Ann".toList, comment := "first".toList, created_at := 50 },
                 { id := 2, user := "Bo".toList, comment := "second".toList, created_at := 40 }] }

/-- A messages table with one message each way between Ann and Bo and one message
from Ann to a third person. -/
def dbThreeMessages : Db :=
  { Db.empty with
    messages := [{ id := 1, sender := "Bo".toList, receiver := "Ann".toList,
                   message := "later".toList, created_at := 30 },
                 { id := 2, sender := "Ann".toList, receiver := "Cy".toList,
                   message := "other".toList, created_at := 10 },
                 { id := 3, sender := "Ann".toList, receiver := "Bo".toList,
                   message := "sooner".toList, created_at := 20 }] }

/-- The about screen of Ann with a bio and an address typed in. -/
def aboutDraft : AboutState :=
  { name := "Ann".toList, bio := "hello".toList, address := "1 Main St".toList }

/-- The about screen of Ann with another bio and an empty address. -/
def aboutDraftNext : AboutState :=
  { name := "Ann".toList, bio := "hello again".toList, address := [] }

/-- A database with the accounts of Ann and Bo and a profile row for Ann. -/
def dbWithProfile : Db :=
  { dbWithAnnBo with
    user_profiles := [{ id := 1, user_id := 1, bio := some "old".toList, address := none }] }

/-- The register form of the scenario for Ann. -/
def scenarioAnn : RegisterState :=
  { form := { name := "Ann".toList, email := "ann@x.com".toList,
              password := "abcdef".toList, confirmPassword := "abcdef".toList },
    passwordStrength := "Weak" }

/-- The register form of the scenario for Bo. -/
def scenarioBo : RegisterState :=
  { form := { name := "Bo".toList, email := "bo@x.com".toList,
              password := "abcdef".toList, confirmPassword := "abcdef".toList },
    passwordStrength := "Weak" }

/-- The database of the scenario after the two registrations. -/
def scenarioDb : Db :=
  (handleRegister (handleRegister Db.empty scenarioAnn).db scenarioBo).db

/-- The account row of Ann in the scenario. -/
def scenarioAnnRow : Account :=
  { id := 1, name := "Ann".toList, email := "ann@x.com".toList,
    password := "abcdef".toList, profileUri := none }

/-- The account row of Bo in the scenario. -/
def scenarioBoRow : Account :=
  { id := 2, name := "Bo".toList, email := "bo@x.com".toList,
    password := "abcdef".toList, profileUri := none }

/-- The login screen of the scenario, filled in by Ann. -/
def scenarioLogin : LoginState :=
  { form := { email := "ann@x.com".toList, password := "abcdef".toList },
    loggedInUser := none, otherUsers := [], profileImage := none }

/-- A sequence of operations: Ann registers, Bo registers, Ann registers again,
Ann picks a picture, sends `hi` to Bo, comments, and saves her profile twice. -/
def sampleOps : List StoreOp :=
  [.register scenarioAnn, .register scenarioBo, .register scenarioAnn,
   .setImageReference true (some "file:///ann.jpg".toList)
     { scenarioLogin with loggedInUser := some scenarioAnnRow },
   .send 10 scenarioAnnRow scenarioBoRow draftHi,
   .post 20 "Ann".toList commentNice,
   .save 1 aboutDraft, .save 1 aboutDraftNext]

/-- A database file in which every table exists, `user_profiles` as
`AboutScreen.js` defines it, with a row for account 1. -/
def fileWithUniqueProfiles : DbFile :=
  { auth_users := some ({ profileUri := false }, [annRow]),
    messages := some [],
    comments := some ({ created_at := false }, []),
    user_profiles := some (aboutUserProfilesDef,
      [{ id := 1, user_id := 1, bio := some "old".toList, address := none }]) }

/-- An account row for Cy. -/
def cyRow : Account :=
  { id := 3, name := "Cy".toList, email := "cy@x.com".toList,
    password := "abcdef".toList, profileUri := none }

/-! ## Auxiliary facts: strings and the email pattern -/

theorem jsTrim_eq_nil_iff (s : Str) : jsTrim s = [] ↔ ∀ c ∈ s, isJsWhiteSpace c = true := by
  unfold jsTrim
  rw [List.reverse_eq_nil_iff, List.dropWhile_eq_nil_iff]
  constructor
  · intro h
    by_contra hne
    have hd : s.dropWhile isJsWhiteSpace ≠ [] := by
      rwa [Ne, List.dropWhile_eq_nil_iff]
    have hhead := List.head_dropWhile_not isJsWhiteSpace s hd
    have hmem : (s.dropWhile isJsWhiteSpace).head hd ∈ (s.dropWhile isJsWhiteSpace).reverse :=
      List.mem_reverse.2 (List.head_mem hd)
    rw [h _ hmem] at hhead
    exact absurd hhead (by simp)
  · intro h x hx
    have hnil : s.dropWhile isJsWhiteSpace = [] := List.dropWhile_eq_nil_iff.2 h
    rw [hnil] at hx
    simp at hx

theorem jsTrim_isEmpty_iff (s : Str) :
    (jsTrim s).isEmpty = true ↔ ∀ c ∈ s, isJsWhiteSpace c = true := by
  rw [List.isEmpty_iff, jsTrim_eq_nil_iff]

theorem matchPlus_iff (cls : Char → Bool) (k : Str → Bool) (s : Str) :
    matchPlus cls k s = true ↔
      ∃ pre rest, s = pre ++ rest ∧ pre ≠ [] ∧ (∀ c ∈ pre, cls c = true) ∧ k rest = true := by
  induction s with
  | nil =>
    simp only [matchPlus, Bool.false_eq_true, false_iff]
    rintro ⟨pre, rest, h, hne, -, -⟩
    have := List.append_eq_nil.1 h.symm
    exact hne this.1
  | cons c cs ih =>
    simp only [matchPlus, Bool.and_eq_true, Bool.or_eq_true, ih]
    constructor
    · rintro ⟨hc, ⟨pre, rest, rfl, -, hall, hk⟩ | hk⟩
      · exact ⟨c :: pre, rest, rfl, by simp, by simpa [hc] using hall, hk⟩
      · exact ⟨[c], cs, rfl, by simp, by simpa using hc, hk⟩
    · rintro ⟨pre, rest, h, hne, hall, hk⟩
      cases pre with
      | nil => exact absurd rfl hne
      | cons p ps =>
        simp only [List.cons_append, List.cons.injEq] at h
        obtain ⟨rfl, rfl⟩ := h
        refine ⟨hall c (by simp), ?_⟩
        cases ps with
        | nil => right; simpa using hk
        | cons q qs =>
          left
          exact ⟨q :: qs, rest, rfl, by simp, fun x hx => hall x (List.mem_cons_of_mem _ hx), hk⟩

theorem matchChar_iff (lit : Char) (k : Str → Bool) (s : Str) :
    matchChar lit k s = true ↔ ∃ rest, s = lit :: rest ∧ k rest = true := by
  cases s with
  | nil => simp [matchChar]
  | cons c cs =>
    simp only [matchChar, Bool.and_eq_true, beq_iff_eq, List.cons.injEq]
    constructor
    · rintro ⟨rfl, hk⟩
      exact ⟨cs, ⟨rfl, rfl⟩, hk⟩
    · rintro ⟨rest, ⟨rfl, rfl⟩, hk⟩
      exact ⟨rfl, hk⟩

theorem emailRegexTest_includes_at (email : Str) (h : emailRegexTest email = true) :
    jsIncludesChar email '@' = true := by
  unfold emailRegexTest at h
  obtain ⟨pre, rest, rfl, -, -, hk⟩ := (matchPlus_iff _ _ _).1 h
  obtain ⟨rest2, rfl, -⟩ := (matchChar_iff _ _ _).1 hk
  simp [jsIncludesChar]

/-! ## Auxiliary facts: sorting and ids -/

theorem orderedInsert_append_singleton {α : Type} (r : α → α → Prop) [DecidableRel r]
    (a x : α) (hax : r a x) (l : List α) :
    List.orderedInsert r a (l ++ [x]) = List.orderedInsert r a l ++ [x] := by
  induction l with
  | nil => simp [List.orderedInsert, hax]
  | cons b l ih =>
    simp only [List.cons_append, List.orderedInsert, List.append_eq]
    split_ifs
    · rfl
    · rw [ih]; rfl

theorem insertionSort_append_singleton {α : Type} (r : α → α → Prop) [DecidableRel r]
    (l : List α) (x : α) (h : ∀ a ∈ l, r a x) :
    List.insertionSort r (l ++ [x]) = List.insertionSort r l ++ [x] := by
  induction l with
  | nil => rfl
  | cons a l ih =>
    simp only [List.cons_append, List.insertionSort, List.append_eq]
    rw [ih (fun b hb => h b (List.mem_cons_of_mem _ hb))]
    exact orderedInsert_append_singleton r a x (h a (List.mem_cons_self _ _)) _

theorem lt_nextId (ids : List Nat) : ∀ i ∈ ids, i < nextId ids := by
  unfold nextId
  induction ids with
  | nil => simp
  | cons j js ih =>
    intro i hi
    simp only [List.foldr_cons]
    rcases List.mem_cons.1 hi with rfl | hi
    · omega
    · have := ih i hi
      omega

theorem sorted_created_at (l : List Message) :
    (l.insertionSort (fun m n => m.created_at ≤ n.created_at)).Sorted
      (fun m n => m.created_at ≤ n.created_at) := by
  haveI : IsTotal Message (fun m n => m.created_at ≤ n.created_at) :=
    ⟨fun m n => Nat.le_total _ _⟩
  haveI : IsTrans Message (fun m n => m.created_at ≤ n.created_at) :=
    ⟨fun _ _ _ h1 h2 => Nat.le_trans h1 h2⟩
  exact List.sorted_insertionSort _ l

/-! ## Auxiliary facts: the account store -/

theorem insertUser_of_dup (db : Db) (name email password : Str)
    (hdup : ∃ u ∈ db.auth_users, u.email = email) :
    insertUser db name email password = .error .uniqueConstraintFailed := by
  unfold insertUser
  rw [if_pos]
  simpa using hdup

theorem handleRegister_success (db : Db) (s : RegisterState)
    (h : (handleRegister db s).alert = ⟨"Success", "Registration complete! You can now log in."⟩) :
    passesRegisterChecks s.form = true ∧
      (∀ u ∈ db.auth_users, u.email ≠ s.form.email) ∧
      (handleRegister db s).db =
        { db with
          auth_users := db.auth_users ++
            [newUserRow db (jsTrim s.form.name) s.form.email s.form.password] } := by
  unfold handleRegister at h ⊢
  unfold passesRegisterChecks
  simp only [] at h ⊢
  split_ifs at h ⊢ with h1 h2 h3 h4
  · simp at h
  · simp at h
  · simp at h
  · simp at h
  · unfold insertUser at h ⊢
    split_ifs at h ⊢ with h5
    · simp at h
    · refine ⟨?_, ?_, rfl⟩
      · simp_all
      · simpa using h5

theorem passesRegisterChecks_login (f : RegisterForm) (h : passesRegisterChecks f = true) :
    f.email.isEmpty = false ∧ f.password.isEmpty = false ∧
      jsIncludesChar f.email '@' = true ∧ ¬ jsLength f.password < 6 := by
  unfold passesRegisterChecks at h
  simp only [Bool.and_eq_true, Bool.not_eq_true', decide_eq_true_eq] at h
  obtain ⟨⟨⟨⟨⟨⟨⟨-, he⟩, hp⟩, -⟩, hre⟩, hlen⟩, -⟩, -⟩ := h
  exact ⟨he, hp, emailRegexTest_includes_at _ hre, by omega⟩

theorem handleLogin_success (db : Db) (s : LoginState)
    (h : (handleLogin db s).alert.title = "Success") :
    ∃ u, selectUser db s.form.email s.form.password = some u ∧
      (handleLogin db s).screen.loggedInUser = some u ∧
      (handleLogin db s).alert = ⟨"Success", "Welcome back, " ++ String.mk u.name ++ "!"⟩ := by
  unfold handleLogin at h ⊢
  simp only [] at h ⊢
  split_ifs at h ⊢ with h1 h2 h3
  · simp at h
  · simp at h
  · simp at h
  · cases hsel : selectUser db s.form.email s.form.password with
    | none => rw [hsel] at h; simp at h
    | some u => exact ⟨u, rfl, rfl, rfl⟩

theorem selectUser_some (db : Db) (email password : Str) (u : Account)
    (h : selectUser db email password = some u) :
    u ∈ db.auth_users ∧ u.email = email ∧ u.password = password := by
  unfold selectUser at h
  have hp := List.find?_some h
  have hm := List.mem_of_find?_eq_some h
  simp only [Bool.and_eq_true, beq_iff_eq] at hp
  exact ⟨hm, hp.1, hp.2⟩

theorem filter_id_ne_eq_erase (rows : List Account) (a : Account)
    (hpk : (rows.map (·.id)).Nodup) (ha : a ∈ rows) :
    rows.filter (fun u => u.id != a.id) = rows.erase a := by
  have hnd : rows.Nodup := List.Nodup.of_map _ hpk
  rw [List.Nodup.erase_eq_filter hnd]
  apply List.filter_congr
  intro u hu
  have hinj := List.inj_on_of_nodup_map hpk hu ha
  by_cases h : u = a
  · subst h; simp
  · have : u.id ≠ a.id := fun hid => h (hinj hid)
    simp [bne, h, this]

/-! ## Auxiliary facts: the conversation store -/

theorem betweenUsers_iff (a b : Str) (m : Message) :
    betweenUsers a b m = true ↔
      (m.sender = a ∧ m.receiver = b) ∨ (m.sender = b ∧ m.receiver = a) := by
  simp [betweenUsers]

theorem betweenUsers_comm (a b : Str) : betweenUsers a b = betweenUsers b a := by
  funext m
  simp only [betweenUsers]
  exact Bool.or_comm _ _

theorem loadMessages_comm (db : Db) (a b : Account) (s : MessengerState) :
    (loadMessages db a b s).messages = (loadMessages db b a s).messages := by
  simp only [loadMessages, betweenUsers_comm a.name b.name]

theorem sendMessage_fst (db : Db) (now : Nat) (a b : Account) (s : MessengerState)
    (h : jsTrim s.newMessage ≠ []) :
    (sendMessage db now a b s).1 = insertMessage db now a.name b.name (jsTrim s.newMessage) := by
  unfold sendMessage
  rw [if_neg (by simpa [List.isEmpty_iff] using h)]

/-! ## Account store: registration -/

/-- Claim C1, as stated, fails: with Ann's email already in the table, a form that
carries this email and a confirmation different from the password is answered
with `Passwords do not match.`, not with `Email already registered.`. -/
theorem register_duplicate_email_masked_by_validation :
    (∃ u ∈ dbWithAnn.auth_users, u.email = formMismatch.form.email) ∧
      (handleRegister dbWithAnn formMismatch).alert = ⟨"Error", "Passwords do not match."⟩ ∧
      (handleRegister dbWithAnn formMismatch).alert ≠ ⟨"Error", "Email already registered."⟩ := by
  refine ⟨⟨annRow, by decide, by decide⟩, by decide, by decide⟩

/-- Claim C1, amended: when an account with the email of the form exists, the
database is left as it was, so the accounts table keeps its number of rows, and
`handleRegister` raises `Email already registered.` exactly when the form gets
through the checks that precede the `INSERT`.  Otherwise it raises the alert of
the first check that fails: `All fields are required.` when the trimmed name, the
email, the password or the confirmation is empty; else `Please enter a valid email
address.` when the email does not match the pattern; else `Password must be at
least 6 characters.` when the password or the confirmation is shorter; else
`Passwords do not match.` when the two differ. -/
theorem register_duplicate_email (db : Db) (s : RegisterState)
    (hdup : ∃ u ∈ db.auth_users, u.email = s.form.email) :
    ((handleRegister db s).alert = ⟨"Error", "Email already registered."⟩ ↔
        passesRegisterChecks s.form = true) ∧
      (handleRegister db s).db = db ∧
      (handleRegister db s).db.auth_users.length = db.auth_users.length ∧
      (passesRegisterChecks s.form = false →
        (handleRegister db s).alert ∈ registerValidationAlerts) ∧
      (jsTrim s.form.name = [] ∨ s.form.email = [] ∨ s.form.password = [] ∨
          s.form.confirmPassword = [] →
        (handleRegister db s).alert = ⟨"Error", "All fields are required."⟩) ∧
      (jsTrim s.form.name ≠ [] → s.form.email ≠ [] → s.form.password ≠ [] →
          s.form.confirmPassword ≠ [] → emailRegexTest s.form.email = false →
        (handleRegister db s).alert =
          ⟨"Invalid Email", "Please enter a valid email address."⟩) ∧
      (jsTrim s.form.name ≠ [] → s.form.email ≠ [] → s.form.password ≠ [] →
          s.form.confirmPassword ≠ [] → emailRegexTest s.form.email = true →
          jsLength s.form.password < 6 ∨ jsLength s.form.confirmPassword < 6 →
        (handleRegister db s).alert =
          ⟨"Weak Password", "Password must be at least 6 characters."⟩) ∧
      (jsTrim s.form.name ≠ [] → s.form.email ≠ [] → s.form.password ≠ [] →
          s.form.confirmPassword ≠ [] → emailRegexTest s.form.email = true →
          6 ≤ jsLength s.form.password → 6 ≤ jsLength s.form.confirmPassword →
          s.form.password ≠ s.form.confirmPassword →
        (handleRegister db s).alert = ⟨"Error", "Passwords do not match."⟩) := by
  have hins := insertUser_of_dup db (jsTrim s.form.name) s.form.email s.form.password hdup
  have hmain : ((handleRegister db s).alert = ⟨"Error", "Email already registered."⟩ ↔
        passesRegisterChecks s.form = true) ∧
      (handleRegister db s).db = db ∧
      (handleRegister db s).db.auth_users.length = db.auth_users.length := by
    unfold handleRegister passesRegisterChecks
    simp only [hins]
    split_ifs with h1 h2 h3 h4
    · simp_all; tauto
    · simp_all
    · simp_all; omega
    · simp_all
    · simp_all
  refine ⟨hmain.1, hmain.2.1, hmain.2.2, ?_, ?_, ?_, ?_, ?_⟩
  · intro hnot
    unfold handleRegister
    unfold passesRegisterChecks at hnot
    simp only [hins]
    split_ifs with h1 h2 h3 h4
    · simp [registerValidationAlerts]
    · simp [registerValidationAlerts]
    · simp [registerValidationAlerts]
    · simp [registerValidationAlerts]
    · exfalso
      simp_all
  · intro h
    unfold handleRegister
    simp only []
    rw [if_pos]
    simp only [Bool.or_eq_true, List.isEmpty_iff]
    tauto
  · intro hn he hp hc hre
    unfold handleRegister
    simp only []
    rw [if_neg (by simp [hn, he, hp, hc]), if_pos (by simp [hre])]
  · intro hn he hp hc hre hlen
    unfold handleRegister
    simp only []
    rw [if_neg (by simp [hn, he, hp, hc]), if_neg (by simp [hre]), if_pos (by simpa using hlen)]
  · intro hn he hp hc hre hl1 hl2 hne
    unfold handleRegister
    simp only []
    rw [if_neg (by simp [hn, he, hp, hc]), if_neg (by simp [hre]),
      if_neg (by simp only [Bool.or_eq_true, decide_eq_true_eq]; omega),
      if_pos (by simp [hne])]

/-- Claim C1, amended, on the table that holds Ann's account: a well-formed form
that reuses her email is answered with `Email already registered.`, and the form
with her email whose confirmation differs from the password with `Passwords do
not match.`; the table keeps its single row. -/
theorem register_duplicate_email_witness :
    (∃ u ∈ dbWithAnn.auth_users, u.email = formAnnAgain.form.email) ∧
      (handleRegister dbWithAnn formAnnAgain).alert = ⟨"Error", "Email already registered."⟩ ∧
      (handleRegister dbWithAnn formAnnAgain).db.auth_users.length = 1 ∧
      (∃ u ∈ dbWithAnn.auth_users, u.email = formMismatch.form.email) ∧
      formMismatch.form.password ≠ formMismatch.form.confirmPassword ∧
      (handleRegister dbWithAnn formMismatch).alert = ⟨"Error", "Passwords do not match."⟩ :=
  have hdup : ∃ u ∈ dbWithAnn.auth_users, u.email = formAnnAgain.form.email :=
    ⟨annRow, by decide, by decide⟩
  have hdup2 : ∃ u ∈ dbWithAnn.auth_users, u.email = formMismatch.form.email :=
    ⟨annRow, by decide, by decide⟩
  have hne : formMismatch.form.password ≠ formMismatch.form.confirmPassword := by decide
  ⟨hdup, (register_duplicate_email dbWithAnn formAnnAgain hdup).1.2 (by decide),
    (register_duplicate_email dbWithAnn formAnnAgain hdup).2.2.1, hdup2, hne,
    (register_duplicate_email dbWithAnn formMismatch hdup2).2.2.2.2.2.2.2 (by decide)
      (by decide) (by decide) (by decide) (by decide) (by decide) (by decide) hne⟩

/-- Claim C2: when the name, the email or the password is empty, the email has
no `@`, or the password has fewer than 6 characters (counted as the program counts
them, in UTF-16 code units), `handleRegister` raises one of its validation alerts
and leaves the database, the form and the route as they were. -/
theorem register_rejects_invalid_input (db : Db) (s : RegisterState)
    (h : s.form.name = [] ∨ s.form.email = [] ∨ s.form.password = [] ∨
      '@' ∉ s.form.email ∨ jsLength s.form.password < 6) :
    (handleRegister db s).alert ∈ registerValidationAlerts ∧
      (handleRegister db s).db = db ∧ (handleRegister db s).screen = s ∧
      (handleRegister db s).navigate = none := by
  unfold handleRegister
  simp only []
  split_ifs with h1 h2 h3 h4
  · simp [registerValidationAlerts]
  · simp [registerValidationAlerts]
  · simp [registerValidationAlerts]
  · simp [registerValidationAlerts]
  · exfalso
    simp only [Bool.or_eq_true, List.isEmpty_iff, not_or] at h1
    rcases h with hn | he | hp | hat | hlen
    · exact h1.1.1.1 (by rw [hn]; rfl)
    · exact h1.1.1.2 he
    · exact h1.1.2 hp
    · have hre : emailRegexTest s.form.email = true := by simpa using h2
      have := emailRegexTest_includes_at _ hre
      simp [jsIncludesChar] at this
      exact hat this
    · simp at h3
      omega

/-- Claim C2 at a form without a name, on the empty database. -/
theorem register_rejects_invalid_input_witness :
    formNoName.form.name = [] ∧
      (handleRegister Db.empty formNoName).alert ∈ registerValidationAlerts ∧
      (handleRegister Db.empty formNoName).db = Db.empty :=
  ⟨rfl, (register_rejects_invalid_input Db.empty formNoName (Or.inl rfl)).1,
    (register_rejects_invalid_input Db.empty formNoName (Or.inl rfl)).2.1⟩

/-! ## Account store: authentication -/

/-- Claim C3: `handleLogin` announces success only for a row of the accounts table
whose email and password are exactly those of the form, and that row becomes the
logged-in user; and in a table whose rows all carry `a@b.com` with `secret1`, the
form `a@b.com` with `Secret1` is answered with `Invalid email or password.` and
changes nothing on the screen. -/
theorem authenticate_exact_match :
    (∀ (db : Db) (s : LoginState), (handleLogin db s).alert.title = "Success" →
      ∃ u ∈ db.auth_users, u.email = s.form.email ∧ u.password = s.form.password ∧
        (handleLogin db s).screen.loggedInUser = some u) ∧
    (∀ (db : Db) (s : LoginState),
      (∀ u ∈ db.auth_users, u.email = "a@b.com".toList ∧ u.password = "secret1".toList) →
      s.form = { email := "a@b.com".toList, password := "Secret1".toList } →
      (handleLogin db s).alert = ⟨"Error", "Invalid email or password."⟩ ∧
        (handleLogin db s).screen = s) := by
  constructor
  · intro db s h
    obtain ⟨u, hsel, hlog, -⟩ := handleLogin_success db s h
    obtain ⟨hm, he, hp⟩ := selectUser_some db _ _ u hsel
    exact ⟨u, hm, he, hp, hlog⟩
  · intro db s hall hform
    have hnone : selectUser db "a@b.com".toList "Secret1".toList = none := by
      unfold selectUser
      rw [List.find?_eq_none]
      intro u hu
      have := (hall u hu).2
      simp [this]
    unfold handleLogin
    simp only [hform]
    rw [if_neg (by decide), if_neg (by decide), if_neg (by decide), hnone]
    exact ⟨rfl, rfl⟩

/-- Claim C3 on the table that holds Ann's account only: her own password logs
her in, the same password in another case does not. -/
theorem authenticate_exact_match_witness :
    ((handleLogin dbWithAnn loginAnn).alert.title = "Success" ∧
      ∃ u ∈ dbWithAnn.auth_users, u.email = loginAnn.form.email ∧
        u.password = loginAnn.form.password ∧
        (handleLogin dbWithAnn loginAnn).screen.loggedInUser = some u) ∧
    ((∀ u ∈ dbWithAnn.auth_users,
        u.email = "a@b.com".toList ∧ u.password = "secret1".toList) ∧
      (handleLogin dbWithAnn loginAnnOtherCase).alert =
        ⟨"Error", "Invalid email or password."⟩) :=
  have hall : ∀ u ∈ dbWithAnn.auth_users,
      u.email = "a@b.com".toList ∧ u.password = "secret1".toList := by decide
  ⟨⟨by decide, authenticate_exact_match.1 dbWithAnn loginAnn (by decide)⟩,
    ⟨hall, (authenticate_exact_match.2 dbWithAnn loginAnnOtherCase hall rfl).1⟩⟩

/-- Claim C4: when `handleRegister` succeeds, it has appended one row with the
trimmed name, the email and the password of the form, and a login with that email
and password right afterwards, from any state of the login screen, gets through
the checks of `handleLogin` and logs in exactly that row. -/
theorem register_then_authenticate (db : Db) (s : RegisterState) (ls : LoginState)
    (hreg : (handleRegister db s).alert =
      ⟨"Success", "Registration complete! You can now log in."⟩) :
    (handleRegister db s).db.auth_users =
        db.auth_users ++ [newUserRow db (jsTrim s.form.name) s.form.email s.form.password] ∧
      (handleLogin (handleRegister db s).db
          { ls with form := { email := s.form.email, password := s.form.password } }).alert =
        ⟨"Success", "Welcome back, " ++ String.mk (jsTrim s.form.name) ++ "!"⟩ ∧
      (handleLogin (handleRegister db s).db
          { ls with form := { email := s.form.email, password := s.form.password }
            }).screen.loggedInUser =
        some (newUserRow db (jsTrim s.form.name) s.form.email s.form.password) ∧
      (newUserRow db (jsTrim s.form.name) s.form.email s.form.password).name =
        jsTrim s.form.name ∧
      (newUserRow db (jsTrim s.form.name) s.form.email s.form.password).email = s.form.email ∧
      (newUserRow db (jsTrim s.form.name) s.form.email s.form.password).password =
        s.form.password := by
  obtain ⟨hchk, hnodup, hdb⟩ := handleRegister_success db s hreg
  obtain ⟨he, hp, hat, hlen⟩ := passesRegisterChecks_login _ hchk
  have hsel : selectUser (handleRegister db s).db s.form.email s.form.password =
      some (newUserRow db (jsTrim s.form.name) s.form.email s.form.password) := by
    rw [hdb]
    unfold selectUser
    simp only [List.find?_append]
    have hnone : List.find? (fun u => u.email == s.form.email && u.password == s.form.password)
        db.auth_users = none := by
      rw [List.find?_eq_none]
      intro u hu
      simp [hnodup u hu]
    rw [hnone]
    simp [newUserRow]
  refine ⟨by rw [hdb], ?_, ?_, rfl, rfl, rfl⟩
  · unfold handleLogin
    simp only [he, hp, hat, hsel, if_neg hlen]
    simp [newUserRow]
  · unfold handleLogin
    simp only [he, hp, hat, hsel, if_neg hlen]
    simp [loadOtherUsers]

/-- Claim C4 for Bo registering next to Ann and logging in from the screen Ann
had filled in. -/
theorem register_then_authenticate_witness :
    (handleRegister dbWithAnn formBo).alert =
        ⟨"Success", "Registration complete! You can now log in."⟩ ∧
      (handleLogin (handleRegister dbWithAnn formBo).db
          { loginAnn with form := { email := formBo.form.email,
                                    password := formBo.form.password } }).screen.loggedInUser =
        some { id := 2, name := "Bo".toList, email := "bo@x.com".toList,
               password := "abcdef".toList, profileUri := none } :=
  ⟨by decide, (register_then_authenticate dbWithAnn formBo loginAnn (by decide)).2.2.1⟩

/-! ## Account store: the other users -/

/-- Claim C5: in an accounts table whose ids are pairwise distinct (`id` is the
primary key), `loadOtherUsers` called with the id of a row `a` of the table yields
the table with `a` removed: `a` is absent, every other row occurs exactly once,
and the rows keep their storage order. -/
theorem listOthers_exact (db : Db) (a : Account) (s : LoginState)
    (hpk : (db.auth_users.map (·.id)).Nodup) (ha : a ∈ db.auth_users) :
    a ∉ (loadOtherUsers db a.id s).otherUsers ∧
      (∀ b ∈ db.auth_users, b ≠ a → (loadOtherUsers db a.id s).otherUsers.count b = 1) ∧
      (loadOtherUsers db a.id s).otherUsers.Sublist db.auth_users ∧
      (loadOtherUsers db a.id s).otherUsers = db.auth_users.erase a := by
  have hnd : db.auth_users.Nodup := List.Nodup.of_map _ hpk
  have herase := filter_id_ne_eq_erase db.auth_users a hpk ha
  simp only [loadOtherUsers]
  refine ⟨?_, ?_, ?_, herase⟩
  · simp
  · intro b hb hne
    rw [herase]
    rw [List.count_erase_of_ne hne]
    exact List.count_eq_one_of_mem hnd hb
  · exact List.filter_sublist _

/-- Claim C5 for Ann in the table of Ann and Bo: the others are Bo alone. -/
theorem listOthers_exact_witness :
    (dbWithAnnBo.auth_users.map (·.id)).Nodup ∧ annRow ∈ dbWithAnnBo.auth_users ∧
      annRow ∉ (loadOtherUsers dbWithAnnBo annRow.id loginAnn).otherUsers ∧
      (loadOtherUsers dbWithAnnBo annRow.id loginAnn).otherUsers.count boRow = 1 :=
  have hpk : (dbWithAnnBo.auth_users.map (·.id)).Nodup := by decide
  have ha : annRow ∈ dbWithAnnBo.auth_users := by decide
  ⟨hpk, ha, (listOthers_exact dbWithAnnBo annRow loginAnn hpk ha).1,
    (listOthers_exact dbWithAnnBo annRow loginAnn hpk ha).2.1 boRow (by decide) (by decide)⟩

/-! ## Conversation store -/

theorem history_after_two_sends (db : Db) (t1 t2 : Nat) (a b : Account)
    (s1 s2 s : MessengerState) (h1 : jsTrim s1.newMessage ≠ []) (h2 : jsTrim s2.newMessage ≠ [])
    (m1 m2 : Message)
    (hm1 : m1 = newMessageRow db t1 a.name b.name (jsTrim s1.newMessage))
    (hm2 : m2 = newMessageRow (sendMessage db t1 a b s1).1 t2 b.name a.name
      (jsTrim s2.newMessage)) :
    (sendMessage (sendMessage db t1 a b s1).1 t2 b a s2).1.messages = db.messages ++ [m1, m2] ∧
      m1 ∈ (loadMessages (sendMessage (sendMessage db t1 a b s1).1 t2 b a s2).1 a b s).messages ∧
      m2 ∈ (loadMessages (sendMessage (sendMessage db t1 a b s1).1 t2 b a s2).1 a b s).messages ∧
      (loadMessages (sendMessage (sendMessage db t1 a b s1).1 t2 b a s2).1 a b s).messages.Sorted
        (fun m n => m.created_at ≤ n.created_at) ∧
      ((∀ m ∈ db.messages, m.created_at ≤ t1) → t1 ≤ t2 →
        (loadMessages (sendMessage (sendMessage db t1 a b s1).1 t2 b a s2).1 a b s).messages =
          (loadMessages db a b s).messages ++ [m1, m2]) := by
  have hdb1 : (sendMessage db t1 a b s1).1 = { db with messages := db.messages ++ [m1] } := by
    rw [sendMessage_fst _ _ _ _ _ h1, hm1]; rfl
  have hdb2 : (sendMessage (sendMessage db t1 a b s1).1 t2 b a s2).1 =
      { db with messages := db.messages ++ [m1, m2] } := by
    rw [sendMessage_fst _ _ _ _ _ h2, hm2, hdb1]
    simp [insertMessage]
  have ht1 : m1.created_at = t1 := by rw [hm1]; rfl
  have ht2 : m2.created_at = t2 := by rw [hm2]; rfl
  have hb1 : betweenUsers a.name b.name m1 = true := by
    rw [betweenUsers_iff, hm1]; exact Or.inl ⟨rfl, rfl⟩
  have hb2 : betweenUsers a.name b.name m2 = true := by
    rw [betweenUsers_iff, hm2]; exact Or.inr ⟨rfl, rfl⟩
  have hload :
      (loadMessages (sendMessage (sendMessage db t1 a b s1).1 t2 b a s2).1 a b s).messages =
        (((db.messages.filter (betweenUsers a.name b.name)) ++ [m1]) ++ [m2]).insertionSort
          (fun m n => m.created_at ≤ n.created_at) := by
    rw [hdb2]
    simp [loadMessages, List.filter_append, List.filter_cons, hb1, hb2]
  refine ⟨by rw [hdb2], ?_, ?_, sorted_created_at _, ?_⟩
  · rw [hload, List.mem_insertionSort]; simp
  · rw [hload, List.mem_insertionSort]; simp
  · intro hold ht
    rw [hload]
    rw [insertionSort_append_singleton, insertionSort_append_singleton]
    · simp [loadMessages]
    · intro m hm
      rw [ht1]
      exact hold m (List.mem_of_mem_filter hm)
    · intro m hm
      rw [ht2]
      rcases List.mem_append.1 hm with hm | hm
      · exact (hold m (List.mem_of_mem_filter hm)).trans ht
      · rw [List.mem_singleton.1 hm, ht1]; exact ht

/-- Claim C6: `loadMessages` gives the same list whichever of the two users is the
current one.  After a message from `a` to `b` and then one from `b` to `a` (the
opposite order of sending is the same statement with `a` and `b` exchanged), both
new rows are in the conversation, the conversation is sorted by `created_at`, and
when the clock of the store has not run backwards it is the former conversation
followed by the two rows in the order in which they were sent. -/
theorem history_symmetric :
    (∀ (db : Db) (a b : Account) (s : MessengerState),
      (loadMessages db a b s).messages = (loadMessages db b a s).messages) ∧
    (∀ (db : Db) (t1 t2 : Nat) (a b : Account) (s1 s2 s : MessengerState),
      jsTrim s1.newMessage ≠ [] → jsTrim s2.newMessage ≠ [] →
      newMessageRow db t1 a.name b.name (jsTrim s1.newMessage) ∈
          (loadMessages (sendMessage (sendMessage db t1 a b s1).1 t2 b a s2).1 a b s).messages ∧
        newMessageRow (sendMessage db t1 a b s1).1 t2 b.name a.name (jsTrim s2.newMessage) ∈
          (loadMessages (sendMessage (sendMessage db t1 a b s1).1 t2 b a s2).1 a b s).messages ∧
        (loadMessages (sendMessage (sendMessage db t1 a b s1).1 t2 b a s2).1 a b s).messages.Sorted
          (fun m n => m.created_at ≤ n.created_at) ∧
        ((∀ m ∈ db.messages, m.created_at ≤ t1) → t1 ≤ t2 →
          (loadMessages (sendMessage (sendMessage db t1 a b s1).1 t2 b a s2).1 a b s).messages =
            (loadMessages db a b s).messages ++
              [newMessageRow db t1 a.name b.name (jsTrim s1.newMessage),
               newMessageRow (sendMessage db t1 a b s1).1 t2 b.name a.name
                 (jsTrim s2.newMessage)])) := by
  refine ⟨loadMessages_comm, ?_⟩
  intro db t1 t2 a b s1 s2 s h1 h2
  exact (history_after_two_sends db t1 t2 a b s1 s2 s h1 h2 _ _ rfl rfl).2

/-- Claim C6 for Ann and Bo on an empty messages table: Ann writes at time 10, Bo
answers at time 20, and either of them reads Ann's message followed by Bo's; the
stored table of three messages reads the same from both sides. -/
theorem history_symmetric_witness :
    (loadMessages dbThreeMessages annRow boRow draftHi).messages =
        (loadMessages dbThreeMessages boRow annRow draftHi).messages ∧
      (jsTrim draftHi.newMessage ≠ [] ∧ jsTrim draftYo.newMessage ≠ [] ∧
        (∀ m ∈ Db.empty.messages, m.created_at ≤ 10) ∧ 10 ≤ 20) ∧
      (loadMessages (sendMessage (sendMessage Db.empty 10 annRow boRow draftHi).1 20 boRow annRow
          draftYo).1 annRow boRow draftHi).messages =
        (loadMessages Db.empty annRow boRow draftHi).messages ++
          [newMessageRow Db.empty 10 annRow.name boRow.name (jsTrim draftHi.newMessage),
           newMessageRow (sendMessage Db.empty 10 annRow boRow draftHi).1 20 boRow.name
             annRow.name (jsTrim draftYo.newMessage)] :=
  have h1 : jsTrim draftHi.newMessage ≠ [] := by decide
  have h2 : jsTrim draftYo.newMessage ≠ [] := by decide
  have h3 : ∀ m ∈ Db.empty.messages, m.created_at ≤ 10 := by decide
  ⟨history_symmetric.1 dbThreeMessages annRow boRow draftHi, ⟨h1, h2, h3, by decide⟩,
    (history_symmetric.2 Db.empty 10 20 annRow boRow draftHi draftYo draftHi h1 h2).2.2.2 h3
      (by decide)⟩

/-- Claim C7: a message is in the list of `loadMessages` exactly when it is a row
of the table sent by one of the two users to the other; such a row occurs in the
list as often as in the table, hence once when the ids of the table are pairwise
distinct; and the list is sorted by `created_at`, ascending. -/
theorem history_exact (db : Db) (a b : Account) (s : MessengerState) :
    (∀ m, m ∈ (loadMessages db a b s).messages ↔
      m ∈ db.messages ∧
        ((m.sender = a.name ∧ m.receiver = b.name) ∨
          (m.sender = b.name ∧ m.receiver = a.name))) ∧
    (∀ m, ((m.sender = a.name ∧ m.receiver = b.name) ∨
          (m.sender = b.name ∧ m.receiver = a.name)) →
      (loadMessages db a b s).messages.count m = db.messages.count m) ∧
    ((db.messages.map (·.id)).Nodup →
      ∀ m ∈ (loadMessages db a b s).messages, (loadMessages db a b s).messages.count m = 1) ∧
    (loadMessages db a b s).messages.Sorted (fun m n => m.created_at ≤ n.created_at) := by
  have hperm := List.perm_insertionSort (fun m n : Message => m.created_at ≤ n.created_at)
    (db.messages.filter (betweenUsers a.name b.name))
  have hmem : ∀ m, m ∈ (loadMessages db a b s).messages ↔
      m ∈ db.messages ∧
        ((m.sender = a.name ∧ m.receiver = b.name) ∨
          (m.sender = b.name ∧ m.receiver = a.name)) := by
    intro m
    simp only [loadMessages]
    rw [List.mem_insertionSort, List.mem_filter, betweenUsers_iff]
  have hcount : ∀ m, ((m.sender = a.name ∧ m.receiver = b.name) ∨
          (m.sender = b.name ∧ m.receiver = a.name)) →
      (loadMessages db a b s).messages.count m = db.messages.count m := by
    intro m hm
    simp only [loadMessages]
    rw [hperm.count_eq, List.count_filter ((betweenUsers_iff _ _ _).2 hm)]
  refine ⟨hmem, hcount, ?_, sorted_created_at _⟩
  intro hpk m hm
  have hm2 := (hmem m).1 hm
  rw [hcount m hm2.2]
  exact List.count_eq_one_of_mem (List.Nodup.of_map _ hpk) hm2.1

/-- Claim C7 on the table of three messages: the conversation of Ann and Bo is
the message of time 20 followed by the message of time 30, each once, and the
message to the third person is left out. -/
theorem history_exact_witness :
    (dbThreeMessages.messages.map (·.id)).Nodup ∧
      (loadMessages dbThreeMessages annRow boRow draftHi).messages =
        [{ id := 3, sender := "Ann".toList, receiver := "Bo".toList,
           message := "sooner".toList, created_at := 20 },
         { id := 1, sender := "Bo".toList, receiver := "Ann".toList,
           message := "later".toList, created_at := 30 }] ∧
      (∀ m ∈ (loadMessages dbThreeMessages annRow boRow draftHi).messages,
        (loadMessages dbThreeMessages annRow boRow draftHi).messages.count m = 1) :=
  have hpk : (dbThreeMessages.messages.map (·.id)).Nodup := by decide
  ⟨hpk, by decide, (history_exact dbThreeMessages annRow boRow draftHi).2.2.1 hpk⟩

/-- Claim C8: `sendMessage` changes nothing (neither the database nor the screen)
exactly when the draft is empty or made of white space only, and this is also
exactly when the messages table is left as it was; for any other draft the
database gains one messages row with the two names, the trimmed draft, an id that
no earlier row has and the clock reading of the store, and nothing else changes
in the database. -/
theorem send_rejected_iff_blank (db : Db) (now : Nat) (a b : Account) (s : MessengerState) :
    (sendMessage db now a b s = (db, s) ↔ ∀ c ∈ s.newMessage, isJsWhiteSpace c = true) ∧
    ((sendMessage db now a b s).1.messages = db.messages ↔
      ∀ c ∈ s.newMessage, isJsWhiteSpace c = true) ∧
    (¬ (∀ c ∈ s.newMessage, isJsWhiteSpace c = true) →
      (sendMessage db now a b s).1 =
        { db with
          messages := db.messages ++
            [{ id := nextId (db.messages.map (·.id)), sender := a.name, receiver := b.name,
               message := jsTrim s.newMessage, created_at := now }] } ∧
      (sendMessage db now a b s).1.messages.length = db.messages.length + 1 ∧
      (∀ m ∈ db.messages, m.id ≠ nextId (db.messages.map (·.id)))) := by
  by_cases hblank : ∀ c ∈ s.newMessage, isJsWhiteSpace c = true
  · have hemp : (jsTrim s.newMessage).isEmpty = true := (jsTrim_isEmpty_iff _).2 hblank
    have hsend : sendMessage db now a b s = (db, s) := by
      unfold sendMessage; rw [if_pos hemp]
    refine ⟨⟨fun _ => hblank, fun _ => hsend⟩, ⟨fun _ => hblank, fun _ => by rw [hsend]⟩, ?_⟩
    intro h; exact absurd hblank h
  · have hne : jsTrim s.newMessage ≠ [] := fun h => hblank ((jsTrim_eq_nil_iff _).1 h)
    have hfst := sendMessage_fst db now a b s hne
    have hmsgs : (sendMessage db now a b s).1.messages = db.messages ++
        [{ id := nextId (db.messages.map (·.id)), sender := a.name, receiver := b.name,
           message := jsTrim s.newMessage, created_at := now }] := by
      rw [hfst]; rfl
    have hneq : (sendMessage db now a b s).1.messages ≠ db.messages := by
      rw [hmsgs]
      intro h
      have := congrArg List.length h
      simp at this
    refine ⟨⟨fun h => ?_, fun h => absurd h hblank⟩,
      ⟨fun h => absurd h hneq, fun h => absurd h hblank⟩, ?_⟩
    · exact absurd (by rw [h]) hneq
    · intro _
      refine ⟨by rw [hfst]; rfl, by rw [hmsgs]; simp, ?_⟩
      intro m hm
      exact Nat.ne_of_lt (lt_nextId _ m.id (List.mem_map_of_mem _ hm))

/-- Claim C8 on the table of three messages: a draft of two blanks changes
nothing, the draft `yo` padded with blanks adds one row from Ann to Bo. -/
theorem send_rejected_iff_blank_witness :
    ((∀ c ∈ draftBlank.newMessage, isJsWhiteSpace c = true) ∧
      sendMessage dbThreeMessages 40 annRow boRow draftBlank = (dbThreeMessages, draftBlank)) ∧
    (¬ (∀ c ∈ draftYo.newMessage, isJsWhiteSpace c = true) ∧
      (sendMessage dbThreeMessages 40 annRow boRow draftYo).1.messages.length =
        dbThreeMessages.messages.length + 1) :=
  have hb : ∀ c ∈ draftBlank.newMessage, isJsWhiteSpace c = true := by decide
  have hn : ¬ (∀ c ∈ draftYo.newMessage, isJsWhiteSpace c = true) := by decide
  ⟨⟨hb, (send_rejected_iff_blank dbThreeMessages 40 annRow boRow draftBlank).1.2 hb⟩,
    ⟨hn, ((send_rejected_iff_blank dbThreeMessages 40 annRow boRow draftYo).2.2 hn).2.1⟩⟩

/-! ## Comment store -/

/-- Claim C9: `addComment` with a draft that is empty or made of white space only
changes neither the database nor the screen: no comments row is added, and
`loadComments` yields the same list, of the same length, as before. -/
theorem blank_comment_rejected (db : Db) (now : Nat) (user : Str) (s : CommentState)
    (hblank : ∀ c ∈ s.comment, isJsWhiteSpace c = true) :
    addComment db now user s = (db, s) ∧
      (addComment db now user s).1.comments = db.comments ∧
      (∀ s1 : CommentState,
        (loadComments (addComment db now user s).1 s1).comments = (loadComments db s1).comments ∧
        (loadComments (addComment db now user s).1 s1).comments.length =
          (loadComments db s1).comments.length) := by
  have hsend : addComment db now user s = (db, s) := by
    unfold addComment; rw [if_pos ((jsTrim_isEmpty_iff _).2 hblank)]
  rw [hsend]
  exact ⟨rfl, rfl, fun _ => ⟨rfl, rfl⟩⟩

/-- Claim C9 for a draft of one blank and one tab on the table of two comments. -/
theorem blank_comment_rejected_witness :
    (∀ c ∈ commentBlank.comment, isJsWhiteSpace c = true) ∧
      addComment dbTwoComments 60 "Ann".toList commentBlank = (dbTwoComments, commentBlank) ∧
      (loadComments (addComment dbTwoComments 60 "Ann".toList commentBlank).1
          commentBlank).comments.length = 2 :=
  have hb : ∀ c ∈ commentBlank.comment, isJsWhiteSpace c = true := by decide
  ⟨hb, (blank_comment_rejected dbTwoComments 60 "Ann".toList commentBlank hb).1,
    ((blank_comment_rejected dbTwoComments 60 "Ann".toList commentBlank hb).2.2
      commentBlank).2.trans (by decide)⟩

/-- Claim C10: the list of `loadComments` holds every row of the comments table as
often as the table does and is sorted by id, ascending; rewriting the rows in any
way that keeps their ids (their timestamps in particular) rewrites the list in
place, without reordering it; and after `addComment` with a draft that is not
blank, the list is the former list followed by one new row that carries the user,
the draft as typed and the next id, and this is the list shown on the screen. -/
theorem list_comments_in_id_order :
    (∀ (db : Db) (s : CommentState),
      (loadComments db s).comments.Perm db.comments ∧
      (∀ c, (loadComments db s).comments.count c = db.comments.count c) ∧
      (loadComments db s).comments.Sorted (fun c d => c.id ≤ d.id)) ∧
    (∀ (db : Db) (s : CommentState) (f : Comment → Comment), (∀ c, (f c).id = c.id) →
      (loadComments { db with comments := db.comments.map f } s).comments =
        (loadComments db s).comments.map f) ∧
    (∀ (db : Db) (now : Nat) (user : Str) (s s1 : CommentState),
      ¬ (∀ c ∈ s.comment, isJsWhiteSpace c = true) →
      (loadComments (addComment db now user s).1 s1).comments =
          (loadComments db s1).comments ++
            [{ id := nextId (db.comments.map (·.id)), user := user, comment := s.comment,
               created_at := now }] ∧
        (addComment db now user s).2.comments =
          (loadComments db s1).comments ++
            [{ id := nextId (db.comments.map (·.id)), user := user, comment := s.comment,
               created_at := now }]) := by
  refine ⟨?_, ?_, ?_⟩
  · intro db s
    haveI : IsTotal Comment (fun c d => c.id ≤ d.id) := ⟨fun c d => Nat.le_total _ _⟩
    haveI : IsTrans Comment (fun c d => c.id ≤ d.id) := ⟨fun _ _ _ h1 h2 => Nat.le_trans h1 h2⟩
    exact ⟨List.perm_insertionSort _ _, fun c => (List.perm_insertionSort _ _).count_eq c,
      List.sorted_insertionSort _ _⟩
  · intro db s f hf
    simp only [loadComments]
    rw [List.map_insertionSort (fun c d : Comment => c.id ≤ d.id) (fun c d => c.id ≤ d.id) f]
    intro c _ d _
    rw [hf c, hf d]
  · intro db now user s s1 hblank
    have hne : (jsTrim s.comment).isEmpty = false := by
      cases h : (jsTrim s.comment).isEmpty with
      | false => rfl
      | true => exact absurd ((jsTrim_isEmpty_iff _).1 h) hblank
    have hsort : ∀ x : Comment, x.id = nextId (db.comments.map (·.id)) →
        List.insertionSort (fun c d : Comment => c.id ≤ d.id) (db.comments ++ [x]) =
          List.insertionSort (fun c d : Comment => c.id ≤ d.id) db.comments ++ [x] := by
      intro x hx
      apply insertionSort_append_singleton
      intro c hc
      rw [hx]
      exact Nat.le_of_lt (lt_nextId _ c.id (List.mem_map_of_mem _ hc))
    unfold addComment
    simp only [hne, Bool.false_eq_true, if_false, loadComments, insertComment, newCommentRow]
    exact ⟨hsort _ rfl, hsort _ rfl⟩

/-- Claim C10 on the table of two comments, whose second row has the older
timestamp: the list keeps the id order, and the comment `nice` posted at time 45,
between the two timestamps, comes last. -/
theorem list_comments_in_id_order_witness :
    (loadComments dbTwoComments commentNice).comments = dbTwoComments.comments ∧
      ¬ (∀ c ∈ commentNice.comment, isJsWhiteSpace c = true) ∧
      (loadComments (addComment dbTwoComments 45 "Cy".toList commentNice).1
          commentNice).comments =
        (loadComments dbTwoComments commentNice).comments ++
          [{ id := 3, user := "Cy".toList, comment := "nice".toList, created_at := 45 }] :=
  have hn : ¬ (∀ c ∈ commentNice.comment, isJsWhiteSpace c = true) := by decide
  ⟨by decide, hn,
    (list_comments_in_id_order.2.2 dbTwoComments 45 "Cy".toList commentNice commentNice hn).1⟩

/-! ## Auxiliary facts: the profile store -/

theorem selectProfile_eq_none (db : Db) (userId : Nat) :
    selectProfile db userId = none ↔ ∀ p ∈ db.user_profiles, p.user_id ≠ userId := by
  unfold selectProfile
  simp [List.find?_eq_none]

theorem filter_updateProfile (db : Db) (bio address : Str) (userId uid : Nat) :
    (updateProfile db bio address userId).user_profiles.filter (fun p => p.user_id == uid) =
      (db.user_profiles.filter (fun p => p.user_id == uid)).map (fun p =>
        if p.user_id == userId then { p with bio := some bio, address := some address } else p) := by
  simp only [updateProfile]
  rw [List.filter_map]
  congr 1
  apply List.filter_congr
  intro p _
  show ((if p.user_id == userId then
    ({ p with bio := some bio, address := some address } : Profile) else p).user_id == uid) =
      (p.user_id == uid)
  split <;> rfl

theorem map_user_id_updateProfile (db : Db) (bio address : Str) (userId : Nat) :
    (updateProfile db bio address userId).user_profiles.map (·.user_id) =
      db.user_profiles.map (·.user_id) := by
  simp only [updateProfile, List.map_map]
  apply List.map_congr_left
  intro p _
  simp only [Function.comp]
  split <;> rfl

theorem filter_eq_nil_of_selectProfile_none (db : Db) (userId : Nat)
    (h : selectProfile db userId = none) :
    db.user_profiles.filter (fun p => p.user_id == userId) = [] := by
  rw [List.filter_eq_nil_iff]
  intro p hp
  simpa using (selectProfile_eq_none db userId).1 h p hp

theorem filter_of_find_some {α : Type} (q : α → Bool) (rows : List α) (p : α)
    (h : rows.find? q = some p) : ∃ rest, rows.filter q = p :: rest := by
  induction rows with
  | nil => simp at h
  | cons r rs ih =>
    cases hq : q r with
    | true =>
      rw [List.find?_cons_of_pos _ hq] at h
      injection h with h
      exact ⟨_, by rw [List.filter_cons_of_pos hq, h]⟩
    | false =>
      rw [List.find?_cons_of_neg _ (by simp [hq])] at h
      rw [List.filter_cons_of_neg (by simp [hq])]
      exact ih h

theorem selectProfile_some_of_filter (db : Db) (userId : Nat) (p : Profile)
    (h : selectProfile db userId = some p) :
    ∃ rest, db.user_profiles.filter (fun q => q.user_id == userId) = p :: rest :=
  filter_of_find_some _ _ p h

/-- The profile rows of the account after a `saveProfile`: the former rows of the
account with the new texts, or one new row when there was none. -/
theorem filter_saveProfile (db : Db) (userId : Nat) (s : AboutState) :
    (saveProfile db userId s).db.user_profiles.filter (fun p => p.user_id == userId) =
      if db.user_profiles.filter (fun p => p.user_id == userId) = [] then
        [newProfileRow db.user_profiles userId s.bio s.address]
      else
        (db.user_profiles.filter (fun p => p.user_id == userId)).map (fun p =>
          { p with bio := some s.bio, address := some s.address }) := by
  unfold saveProfile
  simp only []
  cases hsel : selectProfile db userId with
  | none =>
    have hnil := filter_eq_nil_of_selectProfile_none db userId hsel
    simp [insertProfile, hnil, newProfileRow]
  | some p =>
    obtain ⟨rest, hrest⟩ := selectProfile_some_of_filter db userId p hsel
    simp only [filter_updateProfile, hrest]
    rw [if_neg (by simp)]
    apply List.map_congr_left
    intro q hq
    have : q ∈ db.user_profiles.filter (fun q => q.user_id == userId) := by rw [hrest]; exact hq
    have hq2 := (List.mem_filter.1 this).2
    simp [hq2]


theorem find_of_filter_cons {α : Type} (q : α → Bool) (rows : List α) (p : α) (rest : List α)
    (h : rows.filter q = p :: rest) : rows.find? q = some p := by
  induction rows with
  | nil => simp at h
  | cons r rs ih =>
    cases hq : q r with
    | true =>
      rw [List.filter_cons_of_pos hq] at h
      injection h with h1 _
      rw [List.find?_cons_of_pos _ hq, h1]
    | false =>
      rw [List.filter_cons_of_neg (by simp [hq])] at h
      rw [List.find?_cons_of_neg _ (by simp [hq])]
      exact ih h

theorem filter_saveProfile_single (db : Db) (userId : Nat) (s : AboutState)
    (h : (db.user_profiles.filter (fun p => p.user_id == userId)).length ≤ 1) :
    ∃ p : Profile, (saveProfile db userId s).db.user_profiles.filter
        (fun p => p.user_id == userId) = [p] ∧
      p.user_id = userId ∧ p.bio = some s.bio ∧ p.address = some s.address := by
  rw [filter_saveProfile]
  cases hf : db.user_profiles.filter (fun p => p.user_id == userId) with
  | nil => exact ⟨_, by rw [if_pos rfl], rfl, rfl, rfl⟩
  | cons q qs =>
    rw [hf] at h
    have hqs : qs = [] := by
      cases qs with
      | nil => rfl
      | cons _ _ => simp at h
    subst hqs
    have hq : q ∈ db.user_profiles.filter (fun p => p.user_id == userId) := by
      rw [hf]; exact List.mem_singleton.2 rfl
    have hid : q.user_id = userId := by simpa using (List.mem_filter.1 hq).2
    exact ⟨{ q with bio := some s.bio, address := some s.address },
      by rw [if_neg (by simp)]; rfl, hid, rfl, rfl⟩

theorem selectProfile_saveProfile (db : Db) (userId : Nat) (s : AboutState) :
    ∃ p : Profile, selectProfile (saveProfile db userId s).db userId = some p ∧
      p.bio = some s.bio ∧ p.address = some s.address := by
  have hf := filter_saveProfile db userId s
  cases h0 : db.user_profiles.filter (fun p => p.user_id == userId) with
  | nil =>
    rw [h0, if_pos rfl] at hf
    exact ⟨_, find_of_filter_cons _ _ _ _ hf, rfl, rfl⟩
  | cons q qs =>
    rw [h0, if_neg (by simp), List.map_cons] at hf
    exact ⟨_, find_of_filter_cons _ _ _ _ hf, rfl, rfl⟩

theorem loadUserProfile_bio_address (db : Db) (userId : Nat) (s : AboutState) :
    (loadUserProfile db userId s).bio =
        (match selectProfile db userId with
         | some p => orEmpty p.bio
         | none => s.bio) ∧
      (loadUserProfile db userId s).address =
        (match selectProfile db userId with
         | some p => orEmpty p.address
         | none => s.address) := by
  unfold loadUserProfile
  cases selectProfile db userId <;> cases selectUserName db userId <;> exact ⟨rfl, rfl⟩

theorem handleRegister_db (db : Db) (s : RegisterState) :
    (handleRegister db s).db = db ∨
      ((∀ u ∈ db.auth_users, u.email ≠ s.form.email) ∧
        (handleRegister db s).db =
          { db with
            auth_users := db.auth_users ++
              [newUserRow db (jsTrim s.form.name) s.form.email s.form.password] }) := by
  by_cases h : (handleRegister db s).alert =
      ⟨"Success", "Registration complete! You can now log in."⟩
  · obtain ⟨-, h1, h2⟩ := handleRegister_success db s h
    exact Or.inr ⟨h1, h2⟩
  · left
    unfold handleRegister at h ⊢
    simp only [] at h ⊢
    split_ifs at h ⊢
    · rfl
    · rfl
    · rfl
    · rfl
    · cases hins : insertUser db (jsTrim s.form.name) s.form.email s.form.password with
      | ok d => rw [hins] at h; exact absurd rfl h
      | error e => cases e <;> rfl

theorem pickImage_db (db : Db) (granted : Bool) (picked : Option Str) (s : LoginState) :
    (pickImage db granted picked s).db = db ∨
      ∃ uri id, (pickImage db granted picked s).db = updateProfileUri db uri id := by
  unfold pickImage
  split_ifs
  · left; rfl
  · cases picked with
    | none => left; rfl
    | some uri =>
      cases s.loggedInUser with
      | none => left; rfl
      | some user => right; exact ⟨uri, user.id, rfl⟩

theorem sendMessage_db (db : Db) (now : Nat) (a b : Account) (s : MessengerState) :
    (sendMessage db now a b s).1 = db ∨
      (sendMessage db now a b s).1 = insertMessage db now a.name b.name (jsTrim s.newMessage) := by
  unfold sendMessage
  split_ifs
  · left; rfl
  · right; rfl

theorem addComment_db (db : Db) (now : Nat) (user : Str) (s : CommentState) :
    (addComment db now user s).1 = db ∨
      (addComment db now user s).1 = insertComment db now user s.comment := by
  unfold addComment
  split_ifs
  · left; rfl
  · right; rfl

theorem saveProfile_db (db : Db) (userId : Nat) (s : AboutState) :
    (saveProfile db userId s).db = updateProfile db s.bio s.address userId ∨
      (selectProfile db userId = none ∧
        (saveProfile db userId s).db = insertProfile db userId s.bio s.address) := by
  unfold saveProfile
  cases h : selectProfile db userId with
  | none => right; exact ⟨rfl, rfl⟩
  | some p => left; rfl

/-- What one operation can do to the database: nothing, or the effect of one of
the six writing statements of the application. -/
theorem applyOp_cases (db : Db) (op : StoreOp) :
    applyOp db op = db ∨
    (∃ n e p, (∀ u ∈ db.auth_users, u.email ≠ e) ∧
      applyOp db op = { db with auth_users := db.auth_users ++ [newUserRow db n e p] }) ∨
    (∃ uri id, applyOp db op = updateProfileUri db uri id) ∨
    (∃ now x y m, applyOp db op = insertMessage db now x y m) ∨
    (∃ now u c, applyOp db op = insertComment db now u c) ∨
    (∃ b a uid, applyOp db op = updateProfile db b a uid) ∨
    (∃ uid b a, selectProfile db uid = none ∧ applyOp db op = insertProfile db uid b a) := by
  cases op with
  | register s =>
    rcases handleRegister_db db s with h | ⟨h1, h2⟩
    · exact Or.inl h
    · exact Or.inr (Or.inl ⟨_, _, _, h1, h2⟩)
  | setImageReference granted picked s =>
    rcases pickImage_db db granted picked s with h | ⟨uri, id, h⟩
    · exact Or.inl h
    · exact Or.inr (Or.inr (Or.inl ⟨uri, id, h⟩))
  | send now a b s =>
    rcases sendMessage_db db now a b s with h | h
    · exact Or.inl h
    · exact Or.inr (Or.inr (Or.inr (Or.inl ⟨_, _, _, _, h⟩)))
  | post now user s =>
    rcases addComment_db db now user s with h | h
    · exact Or.inl h
    · exact Or.inr (Or.inr (Or.inr (Or.inr (Or.inl ⟨_, _, _, h⟩))))
  | save userId s =>
    rcases saveProfile_db db userId s with h | ⟨h1, h2⟩
    · exact Or.inr (Or.inr (Or.inr (Or.inr (Or.inr (Or.inl ⟨_, _, _, h⟩)))))
    · exact Or.inr (Or.inr (Or.inr (Or.inr (Or.inr (Or.inr ⟨_, _, _, h1, h2⟩)))))

theorem applyOps_induction (P : Db → Prop) (hstep : ∀ db op, P db → P (applyOp db op))
    (ops : List StoreOp) : ∀ db, P db → P (applyOps db ops) := by
  induction ops with
  | nil => intro db h; exact h
  | cons op ops ih =>
    intro db h
    exact ih (applyOp db op) (hstep db op h)

theorem length_le_one_of_nodup_of_all_eq {α : Type} (l : List α) (e : α) (hnd : l.Nodup)
    (hall : ∀ x ∈ l, x = e) : l.length ≤ 1 := by
  match l, hnd, hall with
  | [], _, _ => simp
  | [_], _, _ => simp
  | a :: b :: t, hnd, hall =>
    exfalso
    have ha := hall a (by simp)
    have hb := hall b (by simp)
    rw [List.nodup_cons] at hnd
    exact hnd.1 (by rw [ha, ← hb]; simp)

theorem filter_length_le_one_of_nodup_map {α β : Type} [DecidableEq β] (key : α → β)
    (q : α → Bool) (e : β) (rows : List α) (hnd : (rows.map key).Nodup)
    (hq : ∀ r ∈ rows, q r = true → key r = e) : (rows.filter q).length ≤ 1 := by
  have hsub : ((rows.filter q).map key).Sublist (rows.map key) :=
    (List.filter_sublist rows).map key
  have hnd2 := hnd.sublist hsub
  have := length_le_one_of_nodup_of_all_eq _ e hnd2 (by
    intro x hx
    obtain ⟨r, hr, rfl⟩ := List.mem_map.1 hx
    exact hq r (List.mem_of_mem_filter hr) (List.mem_filter.1 hr).2)
  simpa using this


theorem oneRowPerAccount_applyOp (db : Db) (op : StoreOp) (h : OneRowPerAccount db) :
    OneRowPerAccount (applyOp db op) := by
  unfold OneRowPerAccount at h ⊢
  rcases applyOp_cases db op with e | ⟨_, _, _, _, e⟩ | ⟨_, _, e⟩ | ⟨_, _, _, _, e⟩ |
    ⟨_, _, _, e⟩ | ⟨b, a, uid, e⟩ | ⟨uid, b, a, hsel, e⟩
  · rw [e]; exact h
  · rw [e]; exact h
  · rw [e]; exact h
  · rw [e]; exact h
  · rw [e]; exact h
  · rw [e, map_user_id_updateProfile]; exact h
  · rw [e]
    simp only [insertProfile, List.map_append, List.map_cons, List.map_nil, newProfileRow]
    rw [List.nodup_append]
    refine ⟨h, List.nodup_singleton _, ?_⟩
    intro x hx hx2
    obtain ⟨p, hp, rfl⟩ := List.mem_map.1 hx
    exact (selectProfile_eq_none db uid).1 hsel p hp (List.mem_singleton.1 hx2)

theorem emails_nodup_applyOp (db : Db) (op : StoreOp)
    (h : (db.auth_users.map (·.email)).Nodup) :
    ((applyOp db op).auth_users.map (·.email)).Nodup := by
  rcases applyOp_cases db op with e | ⟨n, em, p, hne, e⟩ | ⟨uri, id, e⟩ | ⟨_, _, _, _, e⟩ |
    ⟨_, _, _, e⟩ | ⟨b, a, uid, e⟩ | ⟨uid, b, a, hsel, e⟩
  · rw [e]; exact h
  · rw [e]
    simp only [List.map_append, List.map_cons, List.map_nil, newUserRow]
    rw [List.nodup_append]
    refine ⟨h, List.nodup_singleton _, ?_⟩
    intro x hx hx2
    obtain ⟨u, hu, rfl⟩ := List.mem_map.1 hx
    exact hne u hu (List.mem_singleton.1 hx2)
  · rw [e]
    have : (updateProfileUri db uri id).auth_users.map (·.email) =
        db.auth_users.map (·.email) := by
      simp only [updateProfileUri, updateProfileUriRows, List.map_map]
      apply List.map_congr_left
      intro u _
      simp only [Function.comp]
      split <;> rfl
    rw [this]; exact h
  · rw [e]; exact h
  · rw [e]; exact h
  · rw [e]; exact h
  · rw [e]; exact h

/-! ## Auxiliary facts: the database file and the screens after a failure -/

theorem onInit_ok (f : DbFile) :
    onInit f = .ok
      { auth_users := some (f.auth_users.getD ({ profileUri := false }, [])),
        messages := some (f.messages.getD []),
        comments := some (f.comments.getD ({ created_at := true }, [])),
        user_profiles := some (f.user_profiles.getD (appUserProfilesDef, [])) } := by
  obtain ⟨a, m, c, p⟩ := f
  cases a <;> cases m <;> cases c <;> cases p <;> rfl


theorem updateProfileUriRows_getElem (rows : List Account) (uri : Str) (id : Nat) (i : Nat) :
    (updateProfileUriRows rows uri id)[i]? =
      rows[i]?.map (fun u => if u.id == id then { u with profileUri := some uri } else u) := by
  simp [updateProfileUriRows]

theorem handleRegister_screen_of_failure (db : Db) (s : RegisterState)
    (h : (handleRegister db s).alert ≠
      ⟨"Success", "Registration complete! You can now log in."⟩) :
    (handleRegister db s).screen = s ∧ (handleRegister db s).db = db := by
  unfold handleRegister at h ⊢
  simp only [] at h ⊢
  split_ifs at h ⊢
  · exact ⟨rfl, rfl⟩
  · exact ⟨rfl, rfl⟩
  · exact ⟨rfl, rfl⟩
  · exact ⟨rfl, rfl⟩
  · cases hins : insertUser db (jsTrim s.form.name) s.form.email s.form.password with
    | ok d => rw [hins] at h; exact absurd rfl h
    | error e => cases e <;> exact ⟨rfl, rfl⟩

theorem handleLogin_screen_of_failure (db : Db) (s : LoginState)
    (h : (handleLogin db s).alert.title ≠ "Success") : (handleLogin db s).screen = s := by
  unfold handleLogin at h ⊢
  simp only [] at h ⊢
  split_ifs at h ⊢
  · rfl
  · rfl
  · rfl
  · cases hsel : selectUser db s.form.email s.form.password with
    | none => rfl
    | some u => rw [hsel] at h; exact absurd rfl h

theorem handleLogin_of_not_passes (db : Db) (s : LoginState)
    (h : passesLoginChecks s.form = false) : (handleLogin db s).screen = s := by
  apply handleLogin_screen_of_failure
  intro hs
  obtain ⟨u, hsel, -, -⟩ := handleLogin_success db s hs
  unfold handleLogin at hs
  unfold passesLoginChecks at h
  simp only [] at hs
  split_ifs at hs with h1 h2 h3
  · simp at hs
  · simp at hs
  · simp at hs
  · simp_all

/-! ## Profile store -/

/-- Claim C11: when the account has at most one profile row, as in every state
reached from the empty database, two calls of `saveProfile` for the same account
id leave exactly one row for that account, and its bio and address are those of
the second call. -/
theorem save_twice_one_row :
    (∀ (db : Db) (userId : Nat) (s1 s2 : AboutState),
      (db.user_profiles.filter (fun p => p.user_id == userId)).length ≤ 1 →
      ∃ p : Profile,
        (saveProfile (saveProfile db userId s1).db userId s2).db.user_profiles.filter
          (fun p => p.user_id == userId) = [p] ∧
        p.user_id = userId ∧ p.bio = some s2.bio ∧ p.address = some s2.address) ∧
    (∀ (ops : List StoreOp) (userId : Nat) (s1 s2 : AboutState),
      ∃ p : Profile,
        (saveProfile (saveProfile (applyOps Db.empty ops) userId s1).db userId
          s2).db.user_profiles.filter (fun p => p.user_id == userId) = [p] ∧
        p.user_id = userId ∧ p.bio = some s2.bio ∧ p.address = some s2.address) := by
  have key : ∀ (db : Db) (userId : Nat) (s1 s2 : AboutState),
      (db.user_profiles.filter (fun p => p.user_id == userId)).length ≤ 1 →
      ∃ p : Profile,
        (saveProfile (saveProfile db userId s1).db userId s2).db.user_profiles.filter
          (fun p => p.user_id == userId) = [p] ∧
        p.user_id = userId ∧ p.bio = some s2.bio ∧ p.address = some s2.address := by
    intro db userId s1 s2 h
    obtain ⟨q, hq, -, -, -⟩ := filter_saveProfile_single db userId s1 h
    exact filter_saveProfile_single (saveProfile db userId s1).db userId s2 (by rw [hq]; simp)
  refine ⟨key, ?_⟩
  intro ops userId s1 s2
  apply key
  have h : OneRowPerAccount (applyOps Db.empty ops) :=
    applyOps_induction OneRowPerAccount oneRowPerAccount_applyOp ops Db.empty
      (by unfold OneRowPerAccount; exact List.nodup_nil)
  exact filter_length_le_one_of_nodup_map (fun p : Profile => p.user_id) _ userId _ h
    (fun r _ hr => by simpa using hr)

/-- Claim C11 for Ann, who has a profile row: after two saves her only row
carries the second bio and the second, empty, address. -/
theorem save_twice_one_row_witness :
    (dbWithProfile.user_profiles.filter (fun p => p.user_id == 1)).length ≤ 1 ∧
      ∃ p : Profile,
        (saveProfile (saveProfile dbWithProfile 1 aboutDraft).db 1
          aboutDraftNext).db.user_profiles.filter (fun p => p.user_id == 1) = [p] ∧
        p.user_id = 1 ∧ p.bio = some aboutDraftNext.bio ∧
        p.address = some aboutDraftNext.address :=
  ⟨by decide, save_twice_one_row.1 dbWithProfile 1 aboutDraft aboutDraftNext (by decide)⟩

/-- Claim C12: in the database reached from the empty one by any sequence of
calls of the writing handlers (register, profile picture, send, comment, save), no
account id occurs twice in `user_profiles`, that is, every account has at most one
profile row; and `saveProfile` preserves this predicate, whether the store carries
out its statements or rejects them. -/
theorem one_profile_row_per_account :
    (∀ ops : List StoreOp,
      OneRowPerAccount (applyOps Db.empty ops) ∧
      ∀ userId, ((applyOps Db.empty ops).user_profiles.filter
        (fun p => p.user_id == userId)).length ≤ 1) ∧
    (∀ (db : Db) (userId : Nat) (s : AboutState), OneRowPerAccount db →
      OneRowPerAccount (saveProfile db userId s).db ∧
      OneRowPerAccount (saveProfileRejected db s).db) := by
  constructor
  · intro ops
    have h : OneRowPerAccount (applyOps Db.empty ops) :=
      applyOps_induction OneRowPerAccount oneRowPerAccount_applyOp ops Db.empty
        (by unfold OneRowPerAccount; exact List.nodup_nil)
    refine ⟨h, fun userId => ?_⟩
    exact filter_length_le_one_of_nodup_map (fun p : Profile => p.user_id) _ userId _ h
      (fun r _ hr => by simpa using hr)
  · intro db userId s h
    exact ⟨oneRowPerAccount_applyOp db (.save userId s) h, h⟩

/-- Claim C12 on the sample sequence, which saves Ann's profile twice, and for a
save on top of the table that holds her row. -/
theorem one_profile_row_per_account_witness :
    ((applyOps Db.empty sampleOps).user_profiles.filter (fun p => p.user_id == 1)).length = 1 ∧
      OneRowPerAccount (applyOps Db.empty sampleOps) ∧
      OneRowPerAccount dbWithProfile ∧
      OneRowPerAccount (saveProfile dbWithProfile 2 aboutDraft).db :=
  have h : OneRowPerAccount dbWithProfile := by unfold OneRowPerAccount; decide
  ⟨by decide, (one_profile_row_per_account.1 sampleOps).1, h,
    (one_profile_row_per_account.2 dbWithProfile 2 aboutDraft h).1⟩

/-- Claim C13: `saveProfile`, when the store carries out its statements, raises
`Saved`, and `loadUserProfile` for the same account right afterwards sets the bio
and the address to exactly the saved texts, from any state of the screen (the
reload at the end of `saveProfile` included); and for an account without a
profile row, the `SELECT` of `loadUserProfile` finds nothing and the bio and the
address of the screen stay as they are. -/
theorem save_then_load (db : Db) (userId : Nat) (s s1 : AboutState) :
    ((saveProfile db userId s).alert = ⟨"Saved", "Bio and address updated successfully!"⟩ ∧
      (loadUserProfile (saveProfile db userId s).db userId s1).bio = s.bio ∧
      (loadUserProfile (saveProfile db userId s).db userId s1).address = s.address ∧
      (saveProfile db userId s).screen.bio = s.bio ∧
      (saveProfile db userId s).screen.address = s.address) ∧
    ((∀ p ∈ db.user_profiles, p.user_id ≠ userId) →
      selectProfile db userId = none ∧
      (loadUserProfile db userId s1).bio = s1.bio ∧
      (loadUserProfile db userId s1).address = s1.address) := by
  obtain ⟨p, hsel, hb, ha⟩ := selectProfile_saveProfile db userId s
  have hload : ∀ t : AboutState,
      (loadUserProfile (saveProfile db userId s).db userId t).bio = s.bio ∧
      (loadUserProfile (saveProfile db userId s).db userId t).address = s.address := by
    intro t
    have := loadUserProfile_bio_address (saveProfile db userId s).db userId t
    rw [hsel] at this
    simp only [hb, ha, orEmpty] at this
    exact this
  refine ⟨⟨rfl, (hload s1).1, (hload s1).2, (hload s).1, (hload s).2⟩, ?_⟩
  intro hnone
  have hsel0 := (selectProfile_eq_none db userId).2 hnone
  have := loadUserProfile_bio_address db userId s1
  rw [hsel0] at this
  exact ⟨hsel0, this.1, this.2⟩

/-- Claim C13 for Bo, who has no profile row in the table that holds Ann's: a load
leaves the texts of the screen, and a load after his save shows the saved ones. -/
theorem save_then_load_witness :
    (∀ p ∈ dbWithProfile.user_profiles, p.user_id ≠ 2) ∧
      (loadUserProfile dbWithProfile 2 aboutDraftNext).bio = aboutDraftNext.bio ∧
      (loadUserProfile (saveProfile dbWithProfile 2 aboutDraft).db 2 aboutDraftNext).bio =
        aboutDraft.bio :=
  have h : ∀ p ∈ dbWithProfile.user_profiles, p.user_id ≠ 2 := by decide
  ⟨h, ((save_then_load dbWithProfile 2 aboutDraft aboutDraftNext).2 h).2.1,
    (save_then_load dbWithProfile 2 aboutDraft aboutDraftNext).1.2.1⟩

/-! ## The scenario of the specification -/

/-- Claim C14: from the empty database the two registrations of the scenario
succeed and create the accounts of Ann and Bo; Ann logs in and finds Bo among the
other users; and after Ann has sent `hi` to Bo, at whatever time of the store's
clock, the conversation of Ann and Bo, as reloaded by `sendMessage` and by any
later `loadMessages`, is exactly one message, with sender `Ann` and body `hi`. -/
theorem scenario_register_send_history :
    (handleRegister Db.empty scenarioAnn).alert =
        ⟨"Success", "Registration complete! You can now log in."⟩ ∧
    (handleRegister (handleRegister Db.empty scenarioAnn).db scenarioBo).alert =
        ⟨"Success", "Registration complete! You can now log in."⟩ ∧
    scenarioDb.auth_users = [scenarioAnnRow, scenarioBoRow] ∧
    (handleLogin scenarioDb scenarioLogin).screen.loggedInUser = some scenarioAnnRow ∧
    (handleLogin scenarioDb scenarioLogin).screen.otherUsers = [scenarioBoRow] ∧
    (∀ (now : Nat) (s : MessengerState),
      (loadMessages (sendMessage scenarioDb now scenarioAnnRow scenarioBoRow draftHi).1
          scenarioAnnRow scenarioBoRow s).messages =
        [{ id := 1, sender := "Ann".toList, receiver := "Bo".toList, message := "hi".toList,
           created_at := now }] ∧
      (sendMessage scenarioDb now scenarioAnnRow scenarioBoRow draftHi).2.messages =
        [{ id := 1, sender := "Ann".toList, receiver := "Bo".toList, message := "hi".toList,
           created_at := now }]) := by
  refine ⟨by decide, by decide, by decide, by decide, by decide, ?_⟩
  intro now s
  exact ⟨rfl, rfl⟩

/-! ## Schema initializer -/

/-- Claim C15: `onInit` never fails, whichever tables exist; running it again on
its result changes nothing, so running it twice is running it once; every table
that existed keeps its definition and its rows; afterwards all four tables exist;
and on a file in which the four tables exist already it changes nothing at all. -/
theorem onInit_idempotent :
    (∀ f : DbFile, ∃ f1, onInit f = .ok f1 ∧ onInit f1 = .ok f1 ∧
      (∀ t, f.auth_users = some t → f1.auth_users = some t) ∧
      (∀ t, f.messages = some t → f1.messages = some t) ∧
      (∀ t, f.comments = some t → f1.comments = some t) ∧
      (∀ t, f.user_profiles = some t → f1.user_profiles = some t) ∧
      (f1.toDb).isSome = true) ∧
    (∀ f : DbFile, (onInit f >>= onInit) = onInit f) ∧
    (∀ (f : DbFile) (db : Db), f.toDb = some db → onInit f = .ok f) := by
  refine ⟨?_, ?_, ?_⟩
  · intro f
    refine ⟨_, onInit_ok f, ?_, ?_, ?_, ?_, ?_, rfl⟩
    · rw [onInit_ok]; rfl
    · intro t ht; rw [ht]; rfl
    · intro t ht; rw [ht]; rfl
    · intro t ht; rw [ht]; rfl
    · intro t ht; rw [ht]; rfl
  · intro f
    have hbind : ∀ x : DbFile, ((Except.ok x : Except DbError DbFile) >>= onInit) = onInit x :=
      fun _ => rfl
    rw [onInit_ok f, hbind, onInit_ok]
    rfl
  · intro f db h
    obtain ⟨a, m, c, p⟩ := f
    cases a <;> cases m <;> cases c <;> cases p <;> first | rfl | simp [DbFile.toDb] at h

/-- Claim C15 on a file whose four tables exist, `user_profiles` with a row:
`onInit` succeeds and returns the file as it was. -/
theorem onInit_idempotent_witness :
    fileWithUniqueProfiles.toDb =
        some { auth_users := [annRow], messages := [], comments := [],
               user_profiles := [{ id := 1, user_id := 1, bio := some "old".toList,
                                   address := none }] } ∧
      onInit fileWithUniqueProfiles = .ok fileWithUniqueProfiles :=
  ⟨rfl, onInit_idempotent.2.2 fileWithUniqueProfiles _ rfl⟩

/-! ## Account store: the profile picture -/

/-- Claim C16: the `UPDATE` of `pickImage` keeps the number and the order of the
account rows; a row with the given id gets the uri as its `profileUri` and keeps
its id, name, email and password, every other row is unchanged, and so is the
whole table when no row has the id; the other tables are untouched.  `pickImage`
with permission granted, an image picked and a user logged in runs this `UPDATE`
for the id of that user and raises `Updated`.  On the database file, once `onInit`
and the effect of the login screen that adds the column have run, the statement is
accepted. -/
theorem setImageReference_frame :
    (∀ (db : Db) (uri : Str) (id : Nat),
      (updateProfileUri db uri id).auth_users.length = db.auth_users.length ∧
      (∀ (i : Nat) (u : Account), db.auth_users[i]? = some u →
        ∃ v, (updateProfileUri db uri id).auth_users[i]? = some v ∧
          v.id = u.id ∧ v.name = u.name ∧ v.email = u.email ∧ v.password = u.password ∧
          (u.id = id → v.profileUri = some uri) ∧ (u.id ≠ id → v = u)) ∧
      ((∀ u ∈ db.auth_users, u.id ≠ id) →
        (updateProfileUri db uri id).auth_users = db.auth_users) ∧
      (updateProfileUri db uri id).messages = db.messages ∧
      (updateProfileUri db uri id).comments = db.comments ∧
      (updateProfileUri db uri id).user_profiles = db.user_profiles) ∧
    (∀ (db : Db) (uri : Str) (s : LoginState) (user : Account), s.loggedInUser = some user →
      (pickImage db true (some uri) s).db = updateProfileUri db uri user.id ∧
      (pickImage db true (some uri) s).alert =
        some ⟨"Updated", "Profile picture updated successfully!"⟩ ∧
      (pickImage db true (some uri) s).screen = { s with profileImage := some uri }) ∧
    (∀ (f f1 : DbFile) (uri : Str) (id : Nat), onInit f = .ok f1 →
      ∃ d rows, (createProfileUriColumn f1).auth_users = some (d, rows) ∧
        f1.auth_users.map (·.2) = some rows ∧
        execUpdateProfileUri (createProfileUriColumn f1) uri id =
          .ok { createProfileUriColumn f1 with
                auth_users := some (d, updateProfileUriRows rows uri id) }) := by
  refine ⟨?_, ?_, ?_⟩
  · intro db uri id
    refine ⟨by simp [updateProfileUri, updateProfileUriRows], ?_, ?_, rfl, rfl, rfl⟩
    · intro i u hu
      simp only [updateProfileUri, updateProfileUriRows_getElem, hu, Option.map_some']
      by_cases h : u.id = id
      · refine ⟨_, rfl, ?_⟩
        simp [h]
      · refine ⟨_, rfl, ?_⟩
        simp [h]
    · intro hnone
      simp only [updateProfileUri, updateProfileUriRows]
      conv_rhs => rw [← List.map_id db.auth_users]
      apply List.map_congr_left
      intro u hu
      simp [hnone u hu]
  · intro db uri s user hs
    unfold pickImage
    simp [hs]
  · intro f f1 uri id h
    rw [onInit_ok] at h
    injection h with h
    subst h
    obtain ⟨a, m, c, p⟩ := f
    cases a with
    | none => exact ⟨_, _, rfl, rfl, rfl⟩
    | some t =>
      obtain ⟨d, rows⟩ := t
      obtain ⟨b⟩ := d
      cases b with
      | true => exact ⟨_, _, rfl, rfl, rfl⟩
      | false => exact ⟨_, _, rfl, rfl, rfl⟩

/-- Claim C16 on the table of Ann and Bo: a picture for id 2 changes Bo's row
only, and a picture for id 7, which no row has, changes nothing. -/
theorem setImageReference_frame_witness :
    dbWithAnnBo.auth_users[1]? = some boRow ∧
      (updateProfileUri dbWithAnnBo "file:///bo.jpg".toList 2).auth_users =
        [annRow, { boRow with profileUri := some "file:///bo.jpg".toList }] ∧
      (∀ u ∈ dbWithAnnBo.auth_users, u.id ≠ 7) ∧
      (updateProfileUri dbWithAnnBo "file:///bo.jpg".toList 7).auth_users =
        dbWithAnnBo.auth_users :=
  have h : ∀ u ∈ dbWithAnnBo.auth_users, u.id ≠ 7 := by decide
  ⟨by decide, by decide, h,
    (setImageReference_frame.1 dbWithAnnBo "file:///bo.jpg".toList 7).2.2.1 h⟩

/-! ## Lifecycle of the rows -/

/-- Claim C17: no operation removes or reorders a row, and the only columns an
operation changes are `profileUri` of an account and `bio` and `address` of a
profile: after any operation the messages and the comments are the former rows
followed by the new ones, and so are the accounts read without `profileUri` and
the profiles read without `bio` and `address`; hence no table gets shorter. -/
theorem no_delete_three_mutable_fields (db : Db) (op : StoreOp) :
    (∃ t, (applyOp db op).messages = db.messages ++ t) ∧
    (∃ t, (applyOp db op).comments = db.comments ++ t) ∧
    (∃ t, (applyOp db op).auth_users.map (fun u => (u.id, u.name, u.email, u.password)) =
      db.auth_users.map (fun u => (u.id, u.name, u.email, u.password)) ++ t) ∧
    (∃ t, (applyOp db op).user_profiles.map (fun p => (p.id, p.user_id)) =
      db.user_profiles.map (fun p => (p.id, p.user_id)) ++ t) ∧
    db.auth_users.length ≤ (applyOp db op).auth_users.length ∧
    db.messages.length ≤ (applyOp db op).messages.length ∧
    db.comments.length ≤ (applyOp db op).comments.length ∧
    db.user_profiles.length ≤ (applyOp db op).user_profiles.length := by
  rcases applyOp_cases db op with e | ⟨n, em, p, hne, e⟩ | ⟨uri, id, e⟩ | ⟨_, _, _, _, e⟩ |
    ⟨_, _, _, e⟩ | ⟨b, a, uid, e⟩ | ⟨uid, b, a, hsel, e⟩
  · rw [e]
    exact ⟨⟨[], by simp⟩, ⟨[], by simp⟩, ⟨[], by simp⟩, ⟨[], by simp⟩, le_refl _, le_refl _,
      le_refl _, le_refl _⟩
  · rw [e]
    exact ⟨⟨[], by simp⟩, ⟨[], by simp⟩, ⟨_, List.map_append _ _ _⟩, ⟨[], by simp⟩, by simp, le_refl _,
      le_refl _, le_refl _⟩
  · rw [e]
    refine ⟨⟨[], by simp [updateProfileUri]⟩, ⟨[], by simp [updateProfileUri]⟩, ⟨[], ?_⟩,
      ⟨[], by simp [updateProfileUri]⟩, by simp [updateProfileUri, updateProfileUriRows],
      le_refl _, le_refl _, le_refl _⟩
    simp only [updateProfileUri, updateProfileUriRows, List.map_map, List.append_nil]
    apply List.map_congr_left
    intro u _
    simp only [Function.comp]
    split <;> rfl
  · rw [e]
    exact ⟨⟨_, rfl⟩, ⟨[], by simp [insertMessage]⟩, ⟨[], by simp [insertMessage]⟩,
      ⟨[], by simp [insertMessage]⟩, le_refl _, by simp [insertMessage], le_refl _, le_refl _⟩
  · rw [e]
    exact ⟨⟨[], by simp [insertComment]⟩, ⟨_, rfl⟩, ⟨[], by simp [insertComment]⟩,
      ⟨[], by simp [insertComment]⟩, le_refl _, le_refl _, by simp [insertComment], le_refl _⟩
  · rw [e]
    refine ⟨⟨[], by simp [updateProfile]⟩, ⟨[], by simp [updateProfile]⟩,
      ⟨[], by simp [updateProfile]⟩, ⟨[], ?_⟩, le_refl _, le_refl _, le_refl _,
      by simp [updateProfile]⟩
    simp only [updateProfile, List.map_map, List.append_nil]
    apply List.map_congr_left
    intro p _
    simp only [Function.comp]
    split <;> rfl
  · rw [e]
    exact ⟨⟨[], by simp [insertProfile]⟩, ⟨[], by simp [insertProfile]⟩,
      ⟨[], by simp [insertProfile]⟩, ⟨_, List.map_append _ _ _⟩, le_refl _, le_refl _,
      le_refl _, by simp [insertProfile]⟩

/-! ## The screens after a failure -/

/-- Claim C18, as stated, fails for the profile screen: when the store rejects a
statement of `saveProfile`, the bio and the address that were typed in are
cleared. -/
theorem failed_save_clears_inputs :
    (saveProfileRejected dbWithAnn aboutDraft).alert =
        ⟨"Error", "Failed to save profile. Inputs cleared."⟩ ∧
      (saveProfileRejected dbWithAnn aboutDraft).screen.bio = [] ∧
      (saveProfileRejected dbWithAnn aboutDraft).screen.address = [] ∧
      (saveProfileRejected dbWithAnn aboutDraft).screen ≠ aboutDraft := by
  decide

/-- Claim C18, amended: the register, login, messenger and comment screens are in
the state they had before the action whenever the action fails, be it that a
check of the input fails, that the email is registered already or no account
matches, or that the store rejects the statement; the about screen is not: when
the store rejects a statement of `saveProfile`, the name and the database stay as
they were, the bio and the address are cleared, and the alert `Failed to save
profile. Inputs cleared.` is raised. -/
theorem screens_after_failure :
    (∀ (db : Db) (s : RegisterState),
      ((handleRegister db s).alert ≠ ⟨"Success", "Registration complete! You can now log in."⟩ →
        (handleRegister db s).screen = s) ∧
      (handleRegisterRejected db s).screen = s) ∧
    (∀ (db : Db) (s : LoginState),
      ((handleLogin db s).alert.title ≠ "Success" → (handleLogin db s).screen = s) ∧
      (handleLoginRejected db s).screen = s) ∧
    (∀ (db : Db) (now : Nat) (a b : Account) (s : MessengerState),
      ((∀ c ∈ s.newMessage, isJsWhiteSpace c = true) → (sendMessage db now a b s).2 = s) ∧
      (sendMessageRejected db s).2 = s) ∧
    (∀ (db : Db) (now : Nat) (user : Str) (s : CommentState),
      ((∀ c ∈ s.comment, isJsWhiteSpace c = true) → (addComment db now user s).2 = s) ∧
      (addCommentRejected db s).2 = s) ∧
    (∀ (db : Db) (s : AboutState),
      (saveProfileRejected db s).screen = { s with bio := [], address := [] } ∧
      (saveProfileRejected db s).screen.name = s.name ∧
      (saveProfileRejected db s).db = db ∧
      (saveProfileRejected db s).alert =
        ⟨"Error", "Failed to save profile. Inputs cleared."⟩) := by
  refine ⟨?_, ?_, ?_, ?_, ?_⟩
  · intro db s
    refine ⟨fun h => (handleRegister_screen_of_failure db s h).1, ?_⟩
    unfold handleRegisterRejected
    split_ifs with hp
    · rfl
    · apply (handleRegister_screen_of_failure db s _).1
      intro hs
      exact hp (handleRegister_success db s hs).1
  · intro db s
    refine ⟨handleLogin_screen_of_failure db s, ?_⟩
    unfold handleLoginRejected
    split_ifs with hp
    · rfl
    · exact handleLogin_of_not_passes db s (by simpa using hp)
  · intro db now a b s
    refine ⟨fun h => ?_, rfl⟩
    unfold sendMessage
    rw [if_pos ((jsTrim_isEmpty_iff _).2 h)]
  · intro db now user s
    refine ⟨fun h => ?_, rfl⟩
    unfold addComment
    rw [if_pos ((jsTrim_isEmpty_iff _).2 h)]
  · intro db s
    exact ⟨rfl, rfl, rfl, rfl⟩

/-- Claim C18, amended, for a register form whose confirmation differs and for a
blank draft on the messenger screen. -/
theorem screens_after_failure_witness :
    (handleRegister dbWithAnn formMismatch).alert ≠
        ⟨"Success", "Registration complete! You can now log in."⟩ ∧
      (handleRegister dbWithAnn formMismatch).screen = formMismatch ∧
      (∀ c ∈ draftBlank.newMessage, isJsWhiteSpace c = true) ∧
      (sendMessage dbThreeMessages 40 annRow boRow draftBlank).2 = draftBlank :=
  have h1 : (handleRegister dbWithAnn formMismatch).alert ≠
      ⟨"Success", "Registration complete! You can now log in."⟩ := by decide
  have h2 : ∀ c ∈ draftBlank.newMessage, isJsWhiteSpace c = true := by decide
  ⟨h1, (screens_after_failure.1 dbWithAnn formMismatch).1 h1, h2,
    (screens_after_failure.2.2.1 dbThreeMessages 40 annRow boRow draftBlank).1 h2⟩

/-! ## Account store: uniqueness of the email -/

/-- Claim C19: in the database reached from the empty one by any sequence of
calls of the writing handlers, registrations and profile pictures in particular,
no email occurs twice in `auth_users`: two rows with the same email are the same
row, and at most one row matches an email and a password. -/
theorem email_unique_reachable (ops : List StoreOp) :
    ((applyOps Db.empty ops).auth_users.map (·.email)).Nodup ∧
    (∀ u ∈ (applyOps Db.empty ops).auth_users, ∀ v ∈ (applyOps Db.empty ops).auth_users,
      u.email = v.email → u = v) ∧
    (∀ email password : Str,
      ((applyOps Db.empty ops).auth_users.filter
        (fun u => u.email == email && u.password == password)).length ≤ 1) := by
  have h : ((applyOps Db.empty ops).auth_users.map (·.email)).Nodup :=
    applyOps_induction (fun db => (db.auth_users.map (·.email)).Nodup) emails_nodup_applyOp
      ops Db.empty List.nodup_nil
  refine ⟨h, ?_, ?_⟩
  · intro u hu v hv huv
    exact List.inj_on_of_nodup_map h hu hv huv
  · intro email password
    exact filter_length_le_one_of_nodup_map (fun u : Account => u.email) _ email _ h
      (fun r _ hr => by
        simp only [Bool.and_eq_true, beq_iff_eq] at hr
        exact hr.1)

/-- Claim C19 on the sample sequence, in which Ann registers twice and sets a
picture: her email is in the table once, a row of the table with her email is her
row, and one row matches her email and password. -/
theorem email_unique_reachable_witness :
    ((applyOps Db.empty sampleOps).auth_users.map (·.email)) =
        ["ann@x.com".toList, "bo@x.com".toList] ∧
      (∀ v ∈ (applyOps Db.empty sampleOps).auth_users, v.email = "ann@x.com".toList →
        v = { scenarioAnnRow with profileUri := some "file:///ann.jpg".toList }) ∧
      ((applyOps Db.empty sampleOps).auth_users.filter
        (fun u => u.email == "ann@x.com".toList && u.password == "abcdef".toList)).length ≤ 1 :=
  ⟨by decide,
    fun v hv he => ((email_unique_reachable sampleOps).2.1
      { scenarioAnnRow with profileUri := some "file:///ann.jpg".toList } (by decide) v hv
      he.symm).symm,
    (email_unique_reachable sampleOps).2.2 "ann@x.com".toList "abcdef".toList⟩

/-! ## The two definitions of the profile table -/

/-- Claim C20: the two definitions of `user_profiles` differ in the uniqueness of
`user_id`; after `onInit` the `CREATE TABLE IF NOT EXISTS` of the about screen
changes nothing; a table that `onInit` had to create is defined without `UNIQUE`;
under a definition without `UNIQUE` an `INSERT` is accepted whatever rows the
account has already, whereas under the definition of the about screen an `INSERT`
for an account that has a row is refused. -/
theorem profile_schema_first_definition_wins :
    appUserProfilesDef ≠ aboutUserProfilesDef ∧
    (∀ f f1 : DbFile, onInit f = .ok f1 → initDb f1 = .ok f1) ∧
    (∀ f f1 : DbFile, f.user_profiles = none → onInit f = .ok f1 →
      f1.user_profiles = some (appUserProfilesDef, [])) ∧
    (∀ (f : DbFile) (d : UserProfilesDef) (rows : List Profile) (userId : Nat)
        (bio address : Str),
      f.user_profiles = some (d, rows) → d.userIdUnique = false →
      execInsertProfile f userId bio address =
        .ok { f with
          user_profiles := some (d, rows ++ [newProfileRow rows userId bio address]) }) ∧
    (∀ (f : DbFile) (rows : List Profile) (userId : Nat) (bio address : Str),
      f.user_profiles = some (aboutUserProfilesDef, rows) →
      (∃ p ∈ rows, p.user_id = userId) →
      execInsertProfile f userId bio address = .error .uniqueConstraintFailed) := by
  refine ⟨by decide, ?_, ?_, ?_, ?_⟩
  · intro f f1 h
    rw [onInit_ok] at h
    injection h with h
    subst h
    rfl
  · intro f f1 hnone h
    rw [onInit_ok] at h
    injection h with h
    subst h
    simp only [hnone]
    rfl
  · intro f d rows userId bio address hf hd
    unfold execInsertProfile
    rw [hf]
    simp only [hd, Bool.false_and]
    rfl
  · intro f rows userId bio address hf hex
    unfold execInsertProfile
    rw [hf]
    have : rows.any (fun p => p.user_id == userId) = true := by simpa using hex
    simp only [aboutUserProfilesDef, this, Bool.and_self]
    rfl

/-- Claim C20 from the file without tables: after `onInit` and the statement of
the about screen, two inserts for account 1 are both accepted; on the file whose
table has the definition of the about screen the insert for account 1 is
refused. -/
theorem profile_schema_first_definition_wins_witness :
    (∃ f1 f2 f3 f4, onInit DbFile.fresh = .ok f1 ∧ initDb f1 = .ok f2 ∧
      execInsertProfile f2 1 "a".toList "b".toList = .ok f3 ∧
      execInsertProfile f3 1 "c".toList "d".toList = .ok f4 ∧
      f4.user_profiles = some (appUserProfilesDef,
        [{ id := 1, user_id := 1, bio := some "a".toList, address := some "b".toList },
         { id := 2, user_id := 1, bio := some "c".toList, address := some "d".toList }])) ∧
    execInsertProfile fileWithUniqueProfiles 1 "c".toList "d".toList =
      .error .uniqueConstraintFailed :=
  ⟨⟨_, _, _, _, rfl, profile_schema_first_definition_wins.2.1 DbFile.fresh _ rfl, rfl, rfl,
      rfl⟩,
    profile_schema_first_definition_wins.2.2.2.2 fileWithUniqueProfiles _ 1 _ _ rfl
      ⟨_, List.mem_singleton.2 rfl, rfl⟩⟩

/-! ## Auxiliary facts: trimmed texts, the shape of an email, the tables after an operation -/

theorem jsTrim_noOuterWhiteSpace (s : Str) : NoOuterWhiteSpace (jsTrim s) := by
  unfold NoOuterWhiteSpace jsTrim
  constructor
  · intro c hc
    rw [List.head?_reverse] at hc
    have hne : (s.dropWhile isJsWhiteSpace).reverse.dropWhile isJsWhiteSpace ≠ [] := by
      intro h; rw [h] at hc; simp at hc
    have hsuf := List.dropWhile_suffix (l := (s.dropWhile isJsWhiteSpace).reverse) isJsWhiteSpace
    have hlast := hsuf.getLast hne
    have hne2 : (s.dropWhile isJsWhiteSpace).reverse ≠ [] := by
      intro h; rw [h] at hne; simp at hne
    have hne3 : s.dropWhile isJsWhiteSpace ≠ [] := by
      intro h; rw [h] at hne2; simp at hne2
    rw [List.getLast?_eq_getLast _ hne] at hc
    injection hc with hc
    rw [← hc, hlast, List.getLast_reverse]
    have := List.head_dropWhile_not isJsWhiteSpace s hne3
    simpa using this
  · intro c hc
    rw [List.getLast?_reverse] at hc
    have := List.head?_dropWhile_not isJsWhiteSpace (s.dropWhile isJsWhiteSpace).reverse
    rw [hc] at this
    simpa using this

theorem jsTrim_decomposition (s : Str) :
    ∃ pre post : Str, s = pre ++ jsTrim s ++ post ∧
      (∀ c ∈ pre, isJsWhiteSpace c = true) ∧ (∀ c ∈ post, isJsWhiteSpace c = true) := by
  refine ⟨s.takeWhile isJsWhiteSpace,
    ((s.dropWhile isJsWhiteSpace).reverse.takeWhile isJsWhiteSpace).reverse, ?_, ?_, ?_⟩
  · have h1 := List.takeWhile_append_dropWhile isJsWhiteSpace s
    have h2 := List.takeWhile_append_dropWhile isJsWhiteSpace (s.dropWhile isJsWhiteSpace).reverse
    have h3 : s.dropWhile isJsWhiteSpace = jsTrim s ++
        ((s.dropWhile isJsWhiteSpace).reverse.takeWhile isJsWhiteSpace).reverse := by
      unfold jsTrim
      rw [← List.reverse_append, h2, List.reverse_reverse]
    rw [List.append_assoc, ← h3, h1]
  · intro c hc
    exact List.mem_takeWhile_imp hc
  · intro c hc
    exact List.mem_takeWhile_imp (List.mem_reverse.1 hc)

theorem emailRegexTest_iff (e : Str) : emailRegexTest e = true ↔ EmailShape e := by
  unfold emailRegexTest EmailShape
  have hcls : ∀ l : Str, (∀ c ∈ l, notSpaceNorAt c = true) ↔
      (∀ c ∈ l, isJsWhiteSpace c = false ∧ c ≠ '@') := by
    intro l
    simp [notSpaceNorAt]
  constructor
  · intro h
    obtain ⟨a, r1, rfl, ha, hall_a, h1⟩ := (matchPlus_iff _ _ _).1 h
    obtain ⟨r2, rfl, h2⟩ := (matchChar_iff _ _ _).1 h1
    obtain ⟨b, r3, rfl, hb, hall_b, h3⟩ := (matchPlus_iff _ _ _).1 h2
    obtain ⟨r4, rfl, h4⟩ := (matchChar_iff _ _ _).1 h3
    obtain ⟨c, r5, rfl, hc, hall_c, h5⟩ := (matchPlus_iff _ _ _).1 h4
    have hr5 : r5 = [] := by
      cases r5 with
      | nil => rfl
      | cons _ _ => simp [matchEnd] at h5
    subst hr5
    exact ⟨a, b, c, by simp, ha, hb, hc, (hcls a).1 hall_a, (hcls b).1 hall_b,
      (hcls c).1 hall_c⟩
  · rintro ⟨a, b, c, rfl, ha, hb, hc, hall_a, hall_b, hall_c⟩
    refine (matchPlus_iff _ _ _).2 ⟨a, _, rfl, ha, (hcls a).2 hall_a, ?_⟩
    refine (matchChar_iff _ _ _).2 ⟨_, rfl, ?_⟩
    refine (matchPlus_iff _ _ _).2 ⟨b, _, rfl, hb, (hcls b).2 hall_b, ?_⟩
    refine (matchChar_iff _ _ _).2 ⟨_, rfl, ?_⟩
    exact (matchPlus_iff _ _ _).2 ⟨c, [], by simp, hc, (hcls c).2 hall_c, rfl⟩

theorem emailShape_count_at (e : Str) (h : EmailShape e) :
    e.count '@' = 1 ∧ ∀ c ∈ e, isJsWhiteSpace c = false := by
  obtain ⟨a, b, c, rfl, -, -, -, ha, hb, hc⟩ := h
  have hcount : ∀ l : Str, (∀ x ∈ l, isJsWhiteSpace x = false ∧ x ≠ '@') → l.count '@' = 0 := by
    intro l hl
    rw [List.count_eq_zero]
    intro hmem
    exact (hl _ hmem).2 rfl
  constructor
  · simp [List.count_append, List.count_cons, hcount a ha, hcount b hb, hcount c hc]
  · intro x hx
    simp only [List.mem_append, List.mem_cons] at hx
    rcases hx with hx | rfl | hx | rfl | hx
    · exact (ha x hx).1
    · decide
    · exact (hb x hx).1
    · decide
    · exact (hc x hx).1


theorem wellFormed_newUserRow (db : Db) (f : RegisterForm) (h : passesRegisterChecks f = true) :
    WellFormedAccount (newUserRow db (jsTrim f.name) f.email f.password) := by
  unfold passesRegisterChecks at h
  simp only [Bool.and_eq_true, Bool.not_eq_true', decide_eq_true_eq] at h
  obtain ⟨⟨⟨⟨⟨⟨⟨hn, -⟩, -⟩, -⟩, hre⟩, hlen⟩, -⟩, -⟩ := h
  have hshape := (emailRegexTest_iff f.email).1 hre
  have hne : jsTrim f.name ≠ [] := by
    intro h0; rw [h0] at hn; simp at hn
  exact ⟨hne, jsTrim_noOuterWhiteSpace _, hshape, (emailShape_count_at _ hshape).1,
    (emailShape_count_at _ hshape).2, hlen⟩

theorem accounts_applyOp (db : Db) (op : StoreOp) :
    (applyOp db op).auth_users = db.auth_users ∨
    (∃ f : RegisterForm, passesRegisterChecks f = true ∧
      (applyOp db op).auth_users =
        db.auth_users ++ [newUserRow db (jsTrim f.name) f.email f.password]) ∨
    (∃ uri id, (applyOp db op).auth_users = updateProfileUriRows db.auth_users uri id) := by
  cases op with
  | register s =>
    by_cases h : (handleRegister db s).alert =
        ⟨"Success", "Registration complete! You can now log in."⟩
    · obtain ⟨h1, -, h3⟩ := handleRegister_success db s h
      exact Or.inr (Or.inl ⟨s.form, h1, by simp only [applyOp]; rw [h3]⟩)
    · left
      simp only [applyOp]
      rw [(handleRegister_screen_of_failure db s h).2]
  | setImageReference granted picked s =>
    rcases pickImage_db db granted picked s with h | ⟨uri, id, h⟩
    · left; simp only [applyOp]; rw [h]
    · right; right; exact ⟨uri, id, by simp only [applyOp]; rw [h]; rfl⟩
  | send now a b s =>
    left
    rcases sendMessage_db db now a b s with h | h <;> (simp only [applyOp]; rw [h]; try rfl)
  | post now user s =>
    left
    rcases addComment_db db now user s with h | h <;> (simp only [applyOp]; rw [h]; try rfl)
  | save userId s =>
    left
    rcases saveProfile_db db userId s with h | ⟨-, h⟩ <;> (simp only [applyOp]; rw [h]; try rfl)

theorem messages_applyOp (db : Db) (op : StoreOp) :
    (applyOp db op).messages = db.messages ∨
    ∃ (now : Nat) (x y body : Str), jsTrim body ≠ [] ∧
      (applyOp db op).messages = db.messages ++ [newMessageRow db now x y (jsTrim body)] := by
  cases op with
  | register s =>
    left
    rcases handleRegister_db db s with h | ⟨-, h⟩ <;> (simp only [applyOp]; rw [h])
  | setImageReference granted picked s =>
    left
    rcases pickImage_db db granted picked s with h | ⟨uri, id, h⟩ <;>
      (simp only [applyOp]; rw [h]; try rfl)
  | send now a b s =>
    by_cases hb : jsTrim s.newMessage = []
    · left
      simp only [applyOp, sendMessage]
      rw [if_pos (by simp [hb])]
    · right
      refine ⟨now, a.name, b.name, s.newMessage, hb, ?_⟩
      simp only [applyOp]
      rw [sendMessage_fst db now a b s hb]
      rfl
  | post now user s =>
    left
    rcases addComment_db db now user s with h | h <;> (simp only [applyOp]; rw [h]; try rfl)
  | save userId s =>
    left
    rcases saveProfile_db db userId s with h | ⟨-, h⟩ <;> (simp only [applyOp]; rw [h]; try rfl)

theorem wellFormed_updateProfileUriRows (rows : List Account) (uri : Str) (id : Nat)
    (h : ∀ u ∈ rows, WellFormedAccount u) :
    ∀ u ∈ updateProfileUriRows rows uri id, WellFormedAccount u := by
  intro u hu
  unfold updateProfileUriRows at hu
  obtain ⟨v, hv, rfl⟩ := List.mem_map.1 hu
  have hw := h v hv
  split
  · exact hw
  · exact hw

/-! ## The strength of a password -/

/-- Claim C21: `evaluatePassword` returns one of the three distinct texts `Weak`,
`Medium` and `Strong`; `Strong` exactly for a password of at least 6 code units
with an ASCII letter, a digit and a character of the special class; `Medium`
exactly for one of at least 6 code units with a letter and a digit and no special
character; and `Weak` exactly for one that is shorter than 6, has no letter, or
has no digit. -/
theorem evaluatePassword_classification (pwd : Str) :
    (evaluatePassword pwd = "Weak" ∨ evaluatePassword pwd = "Medium" ∨
      evaluatePassword pwd = "Strong") ∧
    ("Weak" ≠ "Medium" ∧ "Weak" ≠ "Strong" ∧ "Medium" ≠ "Strong") ∧
    (evaluatePassword pwd = "Strong" ↔
      6 ≤ jsLength pwd ∧ (∃ c ∈ pwd, isAsciiLetter c = true) ∧
        (∃ c ∈ pwd, isAsciiDigit c = true) ∧ (∃ c ∈ pwd, c ∈ specialChars)) ∧
    (evaluatePassword pwd = "Medium" ↔
      6 ≤ jsLength pwd ∧ (∃ c ∈ pwd, isAsciiLetter c = true) ∧
        (∃ c ∈ pwd, isAsciiDigit c = true) ∧ (∀ c ∈ pwd, c ∉ specialChars)) ∧
    (evaluatePassword pwd = "Weak" ↔
      jsLength pwd < 6 ∨ (∀ c ∈ pwd, isAsciiLetter c = false) ∨
        (∀ c ∈ pwd, isAsciiDigit c = false)) := by
  have hl : testClass isAsciiLetter pwd = true ↔ ∃ c ∈ pwd, isAsciiLetter c = true := by
    simp [testClass]
  have hd : testClass isAsciiDigit pwd = true ↔ ∃ c ∈ pwd, isAsciiDigit c = true := by
    simp [testClass]
  have hs : testClass isSpecialChar pwd = true ↔ ∃ c ∈ pwd, c ∈ specialChars := by
    simp [testClass, isSpecialChar]
  have hnl : (∀ c ∈ pwd, isAsciiLetter c = false) ↔ ¬ ∃ c ∈ pwd, isAsciiLetter c = true := by
    simp
  have hnd : (∀ c ∈ pwd, isAsciiDigit c = false) ↔ ¬ ∃ c ∈ pwd, isAsciiDigit c = true := by
    simp
  have hns : (∀ c ∈ pwd, c ∉ specialChars) ↔ ¬ ∃ c ∈ pwd, c ∈ specialChars := by
    simp
  rw [hnl, hnd, hns, ← hl, ← hd, ← hs]
  unfold evaluatePassword
  simp only []
  by_cases hlen : jsLength pwd < 6
  · have h6 : ¬ 6 ≤ jsLength pwd := by omega
    simp [hlen, h6]
  · have h6 : 6 ≤ jsLength pwd := by omega
    cases testClass isAsciiLetter pwd <;> cases testClass isAsciiDigit pwd <;>
      cases testClass isSpecialChar pwd <;> simp [hlen, h6]

/-- Claim C21 on three passwords: `abc123!` is strong, `abc123` is medium, and
`abcdefgh`, which has no digit, is weak. -/
theorem evaluatePassword_classification_witness :
    evaluatePassword "abc123!".toList = "Strong" ∧
      evaluatePassword "abc123".toList = "Medium" ∧
      evaluatePassword "abcdefgh".toList = "Weak" :=
  ⟨(evaluatePassword_classification "abc123!".toList).2.2.1.2 (by decide),
    (evaluatePassword_classification "abc123".toList).2.2.2.1.2 (by decide),
    (evaluatePassword_classification "abcdefgh".toList).2.2.2.2.2 (by decide)⟩

/-! ## What the store holds -/

/-- Claim C22: the pattern of `handleRegister` accepts exactly the emails of the
shape `name@domain.tld`; a successful registration keeps the accounts table
well-formed; and in the database reached from the empty one by any sequence of
calls of the writing handlers, registrations in particular, every account row has
a non-empty name without white space at either end, an email of that shape with
a single `@` and no white space, and a password of at least 6 code units. -/
theorem stored_accounts_well_formed :
    (∀ e : Str, emailRegexTest e = true ↔ EmailShape e) ∧
    (∀ (db : Db) (s : RegisterState),
      (handleRegister db s).alert = ⟨"Success", "Registration complete! You can now log in."⟩ →
      (∀ u ∈ db.auth_users, WellFormedAccount u) →
      ∀ u ∈ (handleRegister db s).db.auth_users, WellFormedAccount u) ∧
    (∀ (ops : List StoreOp), ∀ u ∈ (applyOps Db.empty ops).auth_users, WellFormedAccount u) := by
  have hstep : ∀ (db : Db) (op : StoreOp), (∀ u ∈ db.auth_users, WellFormedAccount u) →
      ∀ u ∈ (applyOp db op).auth_users, WellFormedAccount u := by
    intro db op h
    rcases accounts_applyOp db op with e | ⟨f, hf, e⟩ | ⟨uri, id, e⟩
    · rw [e]; exact h
    · rw [e]
      intro u hu
      rcases List.mem_append.1 hu with hu | hu
      · exact h u hu
      · rw [List.mem_singleton.1 hu]
        exact wellFormed_newUserRow db f hf
    · rw [e]
      exact wellFormed_updateProfileUriRows _ uri id h
  refine ⟨emailRegexTest_iff, ?_, ?_⟩
  · intro db s _ h
    exact hstep db (.register s) h
  · intro ops
    exact applyOps_induction (fun db => ∀ u ∈ db.auth_users, WellFormedAccount u) hstep ops
      Db.empty (by intro u hu; simp [Db.empty] at hu)

/-- Claim C22 on the sample sequence, and for Ann's registration on the empty
database. -/
theorem stored_accounts_well_formed_witness :
    (handleRegister Db.empty scenarioAnn).alert =
        ⟨"Success", "Registration complete! You can now log in."⟩ ∧
      (∀ u ∈ (handleRegister Db.empty scenarioAnn).db.auth_users, WellFormedAccount u) ∧
      (∀ u ∈ (applyOps Db.empty sampleOps).auth_users, WellFormedAccount u) :=
  ⟨by decide,
    stored_accounts_well_formed.2.1 Db.empty scenarioAnn (by decide)
      (fun u hu => absurd hu (List.not_mem_nil u)),
    stored_accounts_well_formed.2.2 sampleOps⟩

/-- Claim C23: a send with a draft that is not blank appends one row whose body is
the trimmed draft, which has no white space at either end and from which the
draft differs only by white space before and after it; so in the database reached
from the empty one by any sequence of calls of the writing handlers every message
body is non-empty and has no white space at either end. -/
theorem stored_message_normal_form :
    (∀ (db : Db) (now : Nat) (a b : Account) (s : MessengerState), jsTrim s.newMessage ≠ [] →
      (sendMessage db now a b s).1.messages =
          db.messages ++ [newMessageRow db now a.name b.name (jsTrim s.newMessage)] ∧
        (newMessageRow db now a.name b.name (jsTrim s.newMessage)).message =
          jsTrim s.newMessage ∧
        NoOuterWhiteSpace (jsTrim s.newMessage) ∧
        ∃ pre post : Str, s.newMessage = pre ++ jsTrim s.newMessage ++ post ∧
          (∀ c ∈ pre, isJsWhiteSpace c = true) ∧ (∀ c ∈ post, isJsWhiteSpace c = true)) ∧
    (∀ (ops : List StoreOp), ∀ m ∈ (applyOps Db.empty ops).messages,
      m.message ≠ [] ∧ NoOuterWhiteSpace m.message) := by
  constructor
  · intro db now a b s h
    refine ⟨?_, rfl, jsTrim_noOuterWhiteSpace _, jsTrim_decomposition _⟩
    rw [sendMessage_fst db now a b s h]
    rfl
  · intro ops
    apply applyOps_induction
      (fun db => ∀ m ∈ db.messages, m.message ≠ [] ∧ NoOuterWhiteSpace m.message)
    · intro db op h
      rcases messages_applyOp db op with e | ⟨now, x, y, body, hb, e⟩
      · rw [e]; exact h
      · rw [e]
        intro m hm
        rcases List.mem_append.1 hm with hm | hm
        · exact h m hm
        · rw [List.mem_singleton.1 hm]
          exact ⟨hb, jsTrim_noOuterWhiteSpace _⟩
    · intro m hm
      simp [Db.empty] at hm

/-- Claim C23 for the draft `yo` padded with blanks, and on the sample
sequence. -/
theorem stored_message_normal_form_witness :
    jsTrim draftYo.newMessage ≠ [] ∧
      (sendMessage dbThreeMessages 40 annRow boRow draftYo).1.messages =
        dbThreeMessages.messages ++
          [newMessageRow dbThreeMessages 40 annRow.name boRow.name (jsTrim draftYo.newMessage)] ∧
      NoOuterWhiteSpace (jsTrim draftYo.newMessage) ∧
      (∀ m ∈ (applyOps Db.empty sampleOps).messages,
        m.message ≠ [] ∧ NoOuterWhiteSpace m.message) :=
  have h : jsTrim draftYo.newMessage ≠ [] := by decide
  ⟨h, (stored_message_normal_form.1 dbThreeMessages 40 annRow boRow draftYo h).1,
    (stored_message_normal_form.1 dbThreeMessages 40 annRow boRow draftYo h).2.2.1,
    stored_message_normal_form.2 sampleOps⟩

/-! ## Account store: the confirmation of the password -/

/-- Claim C24: when the confirmation differs from the password, is empty, or has
fewer than 6 code units, `handleRegister` raises one of its validation alerts and
leaves the database, the accounts table in particular, and the screen as they
were; when the name, the email and the password are valid by themselves, the alert
is `All fields are required.` for an empty confirmation, `Password must be at
least 6 characters.` for a shorter one, and `Passwords do not match.` otherwise. -/
theorem register_rejects_bad_confirmation (db : Db) (s : RegisterState)
    (h : s.form.password ≠ s.form.confirmPassword ∨ s.form.confirmPassword = [] ∨
      jsLength s.form.confirmPassword < 6) :
    (handleRegister db s).alert ∈ registerValidationAlerts ∧
      (handleRegister db s).db = db ∧
      (handleRegister db s).db.auth_users = db.auth_users ∧
      (handleRegister db s).screen = s ∧
      (jsTrim s.form.name ≠ [] → s.form.email ≠ [] → emailRegexTest s.form.email = true →
        6 ≤ jsLength s.form.password →
        (handleRegister db s).alert =
          if s.form.confirmPassword = [] then ⟨"Error", "All fields are required."⟩
          else if jsLength s.form.confirmPassword < 6 then
            ⟨"Weak Password", "Password must be at least 6 characters."⟩
          else ⟨"Error", "Passwords do not match."⟩) := by
  have hnot : passesRegisterChecks s.form = false := by
    cases hp : passesRegisterChecks s.form with
    | false => rfl
    | true =>
      exfalso
      unfold passesRegisterChecks at hp
      simp only [Bool.and_eq_true, Bool.not_eq_true', decide_eq_true_eq, beq_iff_eq] at hp
      obtain ⟨⟨⟨⟨⟨⟨⟨-, -⟩, -⟩, hc⟩, -⟩, -⟩, hlen⟩, heq⟩ := hp
      rcases h with h | h | h
      · exact h heq
      · rw [h] at hc; simp at hc
      · omega
  have hfail : (handleRegister db s).alert ≠
      ⟨"Success", "Registration complete! You can now log in."⟩ := by
    intro hs
    have := (handleRegister_success db s hs).1
    rw [hnot] at this
    exact absurd this (by simp)
  obtain ⟨hscreen, hdb⟩ := handleRegister_screen_of_failure db s hfail
  refine ⟨?_, hdb, by rw [hdb], hscreen, ?_⟩
  · unfold handleRegister at hfail ⊢
    unfold passesRegisterChecks at hnot
    simp only [] at hfail ⊢
    split_ifs at hfail ⊢ with h1 h2 h3 h4
    · simp [registerValidationAlerts]
    · simp [registerValidationAlerts]
    · simp [registerValidationAlerts]
    · simp [registerValidationAlerts]
    · exfalso
      simp_all
  · intro hn he hre hlen
    have hpw : s.form.password ≠ [] := by
      intro h0; rw [h0] at hlen; simp [jsLength] at hlen
    unfold handleRegister
    simp only []
    by_cases hc : s.form.confirmPassword = []
    · rw [if_pos (by simp [hc]), if_pos hc]
    · rw [if_neg (by simp [hn, he, hpw, hc]), if_neg (by simp [hre]), if_neg hc]
      by_cases hl : jsLength s.form.confirmPassword < 6
      · rw [if_pos (by simp [hl]), if_pos hl]
      · rw [if_neg (by simp [hl]; omega), if_neg hl]
        have hne : s.form.password ≠ s.form.confirmPassword := by
          rcases h with h | h | h
          · exact h
          · exact absurd h hc
          · exact absurd h hl
        rw [if_pos (by simp [hne])]

/-- Claim C24 for the form whose confirmation `secret2` differs from the password
`secret1`, with name, email and password valid. -/
theorem register_rejects_bad_confirmation_witness :
    formMismatch.form.password ≠ formMismatch.form.confirmPassword ∧
      (handleRegister Db.empty formMismatch).db = Db.empty ∧
      (handleRegister Db.empty formMismatch).alert = ⟨"Error", "Passwords do not match."⟩ :=
  have h : formMismatch.form.password ≠ formMismatch.form.confirmPassword := by decide
  ⟨h, (register_rejects_bad_confirmation Db.empty formMismatch (Or.inl h)).2.1,
    ((register_rejects_bad_confirmation Db.empty formMismatch (Or.inl h)).2.2.2.2
      (by decide) (by decide) (by decide) (by decide)).trans (by decide)⟩

/-! ## Conversation store: isolation -/

/-- Claim C25: when the unordered pair of the names of `c` and `d` differs from
that of the names of `a` and `b`, the conversation of `c` and `d` that
`loadMessages` yields is the same after `sendMessage` from `a` to `b` as before,
whatever the draft; and `sendMessage` leaves the accounts, the comments and the
profiles as they were. -/
theorem conversation_isolation (db : Db) (now : Nat) (a b c d : Account)
    (s s1 : MessengerState) (h : s(c.name, d.name) ≠ s(a.name, b.name)) :
    (loadMessages (sendMessage db now a b s).1 c d s1).messages =
        (loadMessages db c d s1).messages ∧
      (sendMessage db now a b s).1.auth_users = db.auth_users ∧
      (sendMessage db now a b s).1.comments = db.comments ∧
      (sendMessage db now a b s).1.user_profiles = db.user_profiles := by
  rcases sendMessage_db db now a b s with e | e
  · rw [e]; exact ⟨rfl, rfl, rfl, rfl⟩
  · rw [e]
    refine ⟨?_, rfl, rfl, rfl⟩
    have hb : betweenUsers c.name d.name
        (newMessageRow db now a.name b.name (jsTrim s.newMessage)) = false := by
      cases hbt : betweenUsers c.name d.name
          (newMessageRow db now a.name b.name (jsTrim s.newMessage)) with
      | false => rfl
      | true =>
        exfalso
        apply h
        rw [Sym2.eq_iff]
        rcases (betweenUsers_iff _ _ _).1 hbt with ⟨h1, h2⟩ | ⟨h1, h2⟩
        · exact Or.inl ⟨h1.symm, h2.symm⟩
        · exact Or.inr ⟨h2.symm, h1.symm⟩
    simp only [loadMessages, insertMessage, List.filter_append, List.filter_cons, hb,
      List.filter_nil, Bool.false_eq_true, if_false, List.append_nil]

/-- Claim C25 on the table of three messages: a message from Ann to Bo leaves the
conversation of Ann and Cy as it was. -/
theorem conversation_isolation_witness :
    s(annRow.name, cyRow.name) ≠ s(annRow.name, boRow.name) ∧
      (loadMessages (sendMessage dbThreeMessages 40 annRow boRow draftHi).1 annRow cyRow
          draftHi).messages =
        (loadMessages dbThreeMessages annRow cyRow draftHi).messages ∧
      (loadMessages dbThreeMessages annRow cyRow draftHi).messages =
        [{ id := 2, sender := "Ann".toList, receiver := "Cy".toList,
           message := "other".toList, created_at := 10 }] :=
  have h : s(annRow.name, cyRow.name) ≠ s(annRow.name, boRow.name) := by
    rw [Ne, Sym2.eq_iff]
    decide
  ⟨h, (conversation_isolation dbThreeMessages 40 annRow boRow annRow cyRow draftHi draftHi h).1,
    by decide⟩

end IndiProject
